import Mathlib

/-!
Verification development for the drellia dispatch service (`src/envio`).

The Python modules `messages_normalizer.py`, `drellia_client.py` and `main.py`
are shallowly embedded below.  Pure code is translated function by function;
external effects (the `requests` HTTP calls, the Postgres collaborators in
`db.py` / `customers_service.py`, `pandas.to_datetime` and `json.loads`) are
abstracted as oracle parameters, so every theorem quantifies over all possible
behaviours of those collaborators.
-/

set_option maxHeartbeats 1000000

namespace Drellia

/-- Truthiness of an optional string, as Python sees it: `None` and `""` are
falsy, every other string is truthy. -/
def otruthy : Option String → Bool
  | none => false
  | some s => s ≠ ""

/-- Python `a or b` for optional strings (`a` if truthy, else `b`). -/
def pyOr (a b : Option String) : Option String :=
  if otruthy a then a else b

/-- Python `str.strip()` on a list of characters: drop leading and trailing
whitespace. -/
def stripChars (cs : List Char) : List Char :=
  ((cs.dropWhile Char.isWhitespace).reverse.dropWhile Char.isWhitespace).reverse

/-- Python `str.strip()`. -/
def pyStrip (s : String) : String := ⟨stripChars s.data⟩

/-- Python `str.lower()`. -/
def pyLower (s : String) : String := ⟨s.data.map Char.toLower⟩

/-- Python `needle in hay` substring containment. -/
def containsSub (needle : List Char) : List Char → Bool
  | [] => needle.isEmpty
  | c :: t => needle.isPrefixOf (c :: t) || containsSub needle t

/-- The outcome statuses used throughout `main.py` and `drellia_client.py`. -/
inductive Status where
  | SENT
  | PARTIAL
  | FAILED
  | SKIPPED
deriving DecidableEq, Repr

/-- Actor classification produced by `resolve_actor` in
`messages_normalizer.py`. -/
inductive ActorType where
  | CUSTOMER
  | BOT
  | AGENT
  | UNKNOWN
deriving DecidableEq, Repr

/-! ## Calendar arithmetic for `datetime(...).timestamp()` -/

/-- Gregorian leap-year test. -/
def isLeap (y : Nat) : Bool := y % 4 == 0 && (y % 100 != 0 || y % 400 == 0)

/-- Number of days in month `m` of year `y`. -/
def daysInMonth (y m : Nat) : Nat :=
  if m = 2 then (if isLeap y then 29 else 28)
  else if m = 4 ∨ m = 6 ∨ m = 9 ∨ m = 11 then 30
  else 31

/-- Days from 1970-01-01 to the civil date `y-m-d` (valid for `1 ≤ y`),
via the standard era/year-of-era decomposition. -/
def daysFromCivil (y m d : Nat) : Int :=
  let ys : Nat := if m ≤ 2 then y - 1 else y
  let era : Nat := ys / 400
  let yoe : Nat := ys % 400
  let mp : Nat := (m + 9) % 12
  let doy : Nat := (153 * mp + 2) / 5 + (d - 1)
  let doe : Nat := yoe * 365 + yoe / 4 - yoe / 100 + doy
  (era * 146097 + doe : Int) - 719468

/-- Field validity as enforced by the `datetime` constructor: out-of-range
fields raise `ValueError` (caught by the callers modelled below). -/
def datetimeValid (y mo d h mi s micro : Nat) : Bool :=
  1 ≤ y && y ≤ 9999 && 1 ≤ mo && mo ≤ 12 && 1 ≤ d && d ≤ daysInMonth y mo &&
  h ≤ 23 && mi ≤ 59 && s ≤ 59 && micro ≤ 999999

/-- `int(datetime(y, mo, d, h, mi, s, micro, tzinfo=utc).timestamp() * 1000)`. -/
def civilToMs (y mo d h mi s micro : Nat) : Int :=
  (daysFromCivil y mo d * 86400 + (h * 3600 + mi * 60 + s : Nat)) * 1000
    + (micro / 1000 : Nat)

/-- The value found in a record's `message_time` field: Python `None`, a
string, or a `datetime` object (carried as its UTC epoch milliseconds). -/
inductive TsVal where
  | pynone
  | pystr (s : String)
  | pydt (ms : Int)
deriving DecidableEq, Repr

/-! ## The positional tuple regex of `parse_timestamp_to_ms`

`re.match(r"\s*(\d{4}),\s*(\d{1,2}),\s*(\d{1,2}),\s*(\d{1,2}),\s*(\d{1,2}),
\s*(\d{1,2}),\s*(\d+),?\s*$", ts)`.  Because every `\d{1,2}` group is
immediately followed by a comma, a maximal digit run of length one or two is
the only way the group can match; a run of three or more digits fails. -/

/-- Numeric value of a digit run. -/
def digitsToNat (ds : List Char) : Nat :=
  ds.foldl (fun a c => a * 10 + (c.toNat - 48)) 0

/-- One `(\d{1,2}),\s*` step of the tuple regex.  Returns the parsed group and
the remaining characters after the comma and following whitespace. -/
def parseMid (cs : List Char) : Option (Nat × List Char) :=
  let ds := cs.takeWhile Char.isDigit
  if ds.length = 0 ∨ 2 < ds.length then none
  else match cs.dropWhile Char.isDigit with
    | ',' :: r => some (digitsToNat ds, r.dropWhile Char.isWhitespace)
    | _ => none

/-- The whole anchored tuple regex of `parse_timestamp_to_ms`, step 2: all
seven groups are required to match. -/
def parseTuple7 (str : String) : Option (Nat × Nat × Nat × Nat × Nat × Nat × Nat) := do
  let cs := str.data.dropWhile Char.isWhitespace
  let yd := cs.takeWhile Char.isDigit
  if yd.length ≠ 4 then none else do
  let r1 ← match cs.dropWhile Char.isDigit with
    | ',' :: r => some (r.dropWhile Char.isWhitespace)
    | _ => none
  let (mo, r2) ← parseMid r1
  let (dd, r3) ← parseMid r2
  let (hh, r4) ← parseMid r3
  let (mi, r5) ← parseMid r4
  let (ss, r6) ← parseMid r5
  let md := r6.takeWhile Char.isDigit
  if md.length = 0 then none else do
  let rest := match r6.dropWhile Char.isDigit with
    | ',' :: t => t
    | t => t
  if (rest.dropWhile Char.isWhitespace).isEmpty then
    some (digitsToNat yd, mo, dd, hh, mi, ss, digitsToNat md)
  else none

/-- `parse_timestamp_to_ms` from `messages_normalizer.py`.

`pandasParse` abstracts `pd.to_datetime(ts, utc=True, errors="coerce")` on
string inputs; on `None` the function returns early, and on `datetime`
objects pandas succeeds and preserves the instant (so step 3 of the Python
function is subsumed by step 1 for the `pydt` case).  When the string regex
matches but the `datetime` constructor raises, the Python code falls through
and returns `None`. -/
def parse_timestamp_to_ms (pandasParse : String → Option Int) : TsVal → Option Int
  | .pynone => none
  | .pydt ms => some ms
  | .pystr s =>
    match pandasParse s with
    | some ms => some ms
    | none =>
      match parseTuple7 s with
      | some (y, mo, d, h, mi, sec, micro) =>
        if datetimeValid y mo d h mi sec micro then some (civilToMs y mo d h mi sec micro)
        else none
      | none => none

/-! ## Raw message records -/

/-- The fields of a raw message dict that the normalizer reads.  `mensaje`
carries `str(value)` of the content (`none` when the key is absent or holds
`None`); likewise `us_origen` and the auxiliary agent metadata. -/
structure RawMsg where
  mensaje : Option String
  message_time : TsVal
  us_origen : Option String
  operador_email : Option String
  operador_nombre : Option String
  operador_rol : Option String
  departamento : Option String
  agent_email : Option String
deriving DecidableEq, Repr

/-- `resolve_actor` from `messages_normalizer.py`: classify the free-text
origin and capture a candidate agent email. -/
def resolve_actor (us_origen : Option String) (raw : RawMsg) : ActorType × Option String :=
  if ¬ otruthy us_origen then (.UNKNOWN, none)
  else
    let origin := pyLower (pyStrip (us_origen.getD ""))
    if origin = "user" ∨ origin = "cliente" ∨ origin = "customer" then (.CUSTOMER, none)
    else if origin = "bot" ∨ origin = "flow" ∨ origin = "ivr" ∨ origin = "system" then (.BOT, none)
    else if origin = "operator" ∨ origin = "agente" ∨ origin = "agent" ∨ origin = "supervisor" then
      (.AGENT, pyOr raw.operador_email raw.agent_email)
    else (.UNKNOWN, none)

/-! ## The Python-dump decoder `_try_parse_python_dump_string`

The decoder works by regular-expression field extraction.  The individual
patterns are modelled as deterministic scanners below; string literals with
single quotes are assembled from `sq` to keep the patterns explicit. -/

/-- The single-quote character. -/
def sq : Char := Char.ofNat 39

/-- The backslash character. -/
def bsl : Char := Char.ofNat 92

/-- The literal `'us_origen':`. -/
def kOrigen : List Char := sq :: ("us_origen".data ++ [sq, ':'])

/-- The literal `'mensaje':`. -/
def kMensaje : List Char := sq :: ("mensaje".data ++ [sq, ':'])

/-- The literal `'operador_email':`. -/
def kOperadorEmail : List Char := sq :: ("operador_email".data ++ [sq, ':'])

/-- The literal `'operador_nombre':`. -/
def kOperadorNombre : List Char := sq :: ("operador_nombre".data ++ [sq, ':'])

/-- The literal `'operador_rol':`. -/
def kOperadorRol : List Char := sq :: ("operador_rol".data ++ [sq, ':'])

/-- The literal `'departamento':`. -/
def kDepartamento : List Char := sq :: ("departamento".data ++ [sq, ':'])

/-- The literal `datetime.datetime`. -/
def kDatetime : List Char := "datetime.datetime".data

/-- The detection heuristic of `_try_parse_python_dump_string`: the three
characteristic tokens must all occur in the string. -/
def hasDumpTokens (s : String) : Bool :=
  containsSub kDatetime s.data && containsSub kOrigen s.data && containsSub kMensaje s.data

/-- `re.finditer(r"\{([^{}]*)\}", s)`: every maximal brace-delimited block
with no nested braces, innermost content only.  The first argument is `none`
outside a candidate block and `some acc` (reversed content so far) inside
one; a second `{` restarts the candidate, as the regex engine would re-anchor
there after failing at the earlier position. -/
def findBlocksGo : Option (List Char) → List Char → List (List Char)
  | _, [] => []
  | none, '{' :: t => findBlocksGo (some []) t
  | none, _ :: t => findBlocksGo none t
  | some _, '{' :: t => findBlocksGo (some []) t
  | some acc, '}' :: t => acc.reverse :: findBlocksGo none t
  | some acc, c :: t => findBlocksGo (some (c :: acc)) t

/-- All dict-like blocks of a dump string. -/
def findBlocks (cs : List Char) : List (List Char) := findBlocksGo none cs

/-- Generic `re.search`: try the pattern matcher at every suffix, first
success wins. -/
def reSearch (f : List Char → Option α) : List Char → Option α
  | [] => f []
  | c :: t =>
    match f (c :: t) with
    | some r => some r
    | none => reSearch f t

/-- Match `key` then `\s*` then `'([^']*)'` at the start of `cs`, returning
the capture. -/
def matchQuotedAt (key : List Char) (cs : List Char) : Option (List Char) :=
  if key.isPrefixOf cs then
    match (cs.drop key.length).dropWhile Char.isWhitespace with
    | c :: t =>
      if c = sq then
        match t.dropWhile (fun x => x ≠ sq) with
        | _ :: _ => some (t.takeWhile (fun x => x ≠ sq))
        | [] => none
      else none
    | [] => none
  else none

/-- Match `((?:\\'|[^'])*)'` and return the capture with `\'` already
unescaped (the Python code applies `.replace("\\'", "'")` to the raw
capture).  When the escaped-quote branch cannot reach a closing quote the
engine backtracks and lets the quote after the backslash terminate the
match. -/
def mCapture : List Char → Option (List Char)
  | [] => none
  | [c] => if c = sq then some [] else none
  | c :: d :: t2 =>
    if c = sq then some []
    else if c = bsl then
      if d = sq then
        match mCapture t2 with
        | some r => some (sq :: r)
        | none => some [bsl]
      else (mCapture (d :: t2)).map (fun r => c :: r)
    else (mCapture (d :: t2)).map (fun r => c :: r)

/-- Match `'mensaje':\s*'((?:\\'|[^'])*)'` at the start of `cs`. -/
def searchMensajeAt (cs : List Char) : Option (List Char) :=
  if kMensaje.isPrefixOf cs then
    match (cs.drop kMensaje.length).dropWhile Char.isWhitespace with
    | c :: t => if c = sq then mCapture t else none
    | [] => none
  else none

/-- Match `datetime\.datetime\(([^)]*)\)` at the start of `cs`. -/
def searchDatetimeAt (cs : List Char) : Option (List Char) :=
  let pat := kDatetime ++ ['(']
  if pat.isPrefixOf cs then
    let r := cs.drop pat.length
    match r.dropWhile (fun c => c ≠ ')') with
    | _ :: _ => some (r.takeWhile (fun c => c ≠ ')'))
    | [] => none
  else none

/-- Python `"...".split(",")` on a character list. -/
def splitComma : List Char → List (List Char)
  | [] => [[]]
  | ',' :: t => [] :: splitComma t
  | c :: t =>
    match splitComma t with
    | h :: r => (c :: h) :: r
    | [] => [[c]]

/-- The `for p in parts: if p.isdigit(): append else break` loop over the
comma-separated, stripped pieces of the datetime argument list. -/
def takeInts : List (List Char) → List Nat
  | [] => []
  | p :: t =>
    let q := stripChars p
    if q ≠ [] ∧ q.all Char.isDigit then digitsToNat q :: takeInts t else []

/-- Build the `datetime` object from the numeric prefix of the argument list:
at least three numbers are required, missing trailing fields default to zero,
and an invalid date yields `None`. -/
def dumpDatetime (cap : List Char) : TsVal :=
  let ints := takeInts (splitComma cap)
  if 3 ≤ ints.length then
    let y := ints.getD 0 0
    let mo := ints.getD 1 0
    let d := ints.getD 2 0
    let hh := ints.getD 3 0
    let mi := ints.getD 4 0
    let ss := ints.getD 5 0
    let mic := ints.getD 6 0
    if datetimeValid y mo d hh mi ss mic then .pydt (civilToMs y mo d hh mi ss mic)
    else .pynone
  else .pynone

/-- Decode one brace block into a raw record.  The Python field regexes
search `m.group(0)` (the block with its braces); since none of the patterns
can match a brace, searching the inner content is equivalent. -/
def parseDumpBlock (block : List Char) : RawMsg :=
  let content := (reSearch searchMensajeAt block).map (fun l => (⟨l⟩ : String))
  let mt := match reSearch searchDatetimeAt block with
    | some cap => dumpDatetime cap
    | none => TsVal.pynone
  let us := (reSearch (matchQuotedAt kOrigen) block).map (fun l => (⟨l⟩ : String))
  let oEmail := (reSearch (matchQuotedAt kOperadorEmail) block).map (fun l => (⟨l⟩ : String))
  let oNombre := (reSearch (matchQuotedAt kOperadorNombre) block).map (fun l => (⟨l⟩ : String))
  let oRol := (reSearch (matchQuotedAt kOperadorRol) block).map (fun l => (⟨l⟩ : String))
  let depto := (reSearch (matchQuotedAt kDepartamento) block).map (fun l => (⟨l⟩ : String))
  RawMsg.mk content mt us oEmail oNombre oRol depto none

/-- `_try_parse_python_dump_string`: token heuristic, then block extraction;
no blocks means no parse (`parsed_msgs` is empty exactly when no block
matched). -/
def try_parse_python_dump_string (s : String) : Option (List RawMsg) :=
  if ¬ hasDumpTokens s then none
  else
    let blocks := findBlocks s.data
    if blocks.isEmpty then none
    else some (blocks.map parseDumpBlock)

/-! ## `load_raw_messages` and `normalize_messages` -/

/-- One element of a raw message list: a dict, or some other value (skipped
with a warning by `normalize_messages`). -/
inductive RawItem where
  | rdict (m : RawMsg)
  | rother
deriving DecidableEq, Repr

/-- The possible results of `json.loads`, as far as `load_raw_messages`
distinguishes them. -/
inductive JVal where
  | jlist (items : List RawItem)
  | jdict (m : RawMsg)
  | jstr (s : String)
  | jother
deriving Repr

/-- The raw `mensajes` column: a native list, a single dict, a string, or any
other value (logged and ignored). -/
inductive RawInput where
  | rlist (items : List RawItem)
  | rwrap (m : RawMsg)
  | rstr (s : String)
  | rnone
deriving Repr

/-- `load_raw_messages` from `messages_normalizer.py`.  `jsonDecode`
abstracts `json.loads` (already stripped input); `none` models a decode
exception. -/
def load_raw_messages (jsonDecode : String → Option JVal) : RawInput → List RawItem
  | .rlist items => items
  | .rwrap m =>
    (match m.mensaje with
     | some inner =>
       (match try_parse_python_dump_string (pyStrip inner) with
        | some msgs => msgs.map .rdict
        | none => [.rdict m])
     | none => [.rdict m])
  | .rstr s0 =>
    let s := pyStrip s0
    if s = "" then []
    else
      let viaJson : Option (List RawItem) :=
        match jsonDecode s with
        | some (.jlist items) => some items
        | some (.jdict m) => some [.rdict m]
        | some (.jstr inner) => (try_parse_python_dump_string (pyStrip inner)).map (List.map .rdict)
        | some .jother => none
        | none => none
      match viaJson with
      | some items => items
      | none =>
        match try_parse_python_dump_string s with
        | some msgs => msgs.map .rdict
        | none => [.rdict (RawMsg.mk (some s) .pynone (some "unknown") none none none none none)]
  | .rnone => []

/-- `NormalizedMessage` from `models.py`. -/
structure NMsg where
  ts_ms : Int
  actor_type : ActorType
  actor_email : Option String
  content : String
  raw : RawMsg
deriving DecidableEq, Repr

/-- The placeholder contents filtered out by `normalize_messages`. -/
def placeholders : List String := ["__image__", "__audio__", "__file__", "<image>", "<audio>"]

/-- The per-record body of the `normalize_messages` loop: content check,
placeholder filter, timestamp resolution with current-time fallback
(`nowMs` is `parse_timestamp_to_ms(datetime.utcnow())`), actor resolution,
and the drop of UNKNOWN actors. -/
def processItem (pandasParse : String → Option Int) (nowMs : Int) : RawItem → Option NMsg
  | .rother => none
  | .rdict m =>
    match m.mensaje with
    | none => none
    | some c =>
      let content := pyStrip c
      if content = "" then none
      else if placeholders.contains content then none
      else
        let ts := (parse_timestamp_to_ms pandasParse m.message_time).getD nowMs
        let ae := resolve_actor m.us_origen m
        if ae.1 = .UNKNOWN then none
        else some (NMsg.mk ts ae.1 ae.2 content m)

/-- The normalized list before the final chronological sort. -/
def preNormalize (pandasParse : String → Option Int) (jsonDecode : String → Option JVal)
    (nowMs : Int) (raw : RawInput) : List NMsg :=
  (load_raw_messages jsonDecode raw).filterMap (processItem pandasParse nowMs)

/-- The sort key comparison of `output.sort(key=lambda x: x.ts_ms)`. -/
def tsLe (a b : NMsg) : Bool := a.ts_ms ≤ b.ts_ms

/-- `normalize_messages` from `messages_normalizer.py`: parse, filter,
resolve, then sort chronologically with a stable sort (Python `list.sort` is
stable; modelled by `List.mergeSort`, which is also stable). -/
def normalize_messages (pandasParse : String → Option Int) (jsonDecode : String → Option JVal)
    (nowMs : Int) (raw : RawInput) : List NMsg :=
  (preNormalize pandasParse jsonDecode nowMs raw).mergeSort tsLe

/-! ## `aggregate_session_result` (`main.py`) -/

/-- The fields of a per-segment outcome dict that the aggregator reads; the
HTTP code fields are optional so that `r.get(...) or 0` is modelled
faithfully. -/
structure SegResult where
  status : Status
  reason : Option String
  http_code_conv : Option Nat
  http_code_msgs : Option Nat
deriving DecidableEq, Repr

/-- The identifying fields the aggregator copies out of the job. -/
structure JobIds where
  session_id : String
  lote_id : Option String
deriving DecidableEq, Repr

/-- The session-level result dict produced by the aggregator. -/
structure AggResult where
  session_id : String
  lote_id : Option String
  status : Status
  reason : Option String
  http_code_conv : Nat
  http_code_msgs : Nat
  segments : List SegResult
deriving DecidableEq, Repr

/-- `aggregate_session_result` from `main.py`.  Python materialises the
failure reasons as a `set` (arbitrary iteration order); the deduplication is
modelled by `List.dedup`, which keeps the same set of reasons. -/
def aggregate_session_result (job : JobIds) (segment_results : List SegResult) : AggResult :=
  if segment_results.isEmpty then
    AggResult.mk job.session_id job.lote_id .SKIPPED (some "NO_SEGMENTS") 0 0 []
  else
    let has_sent := segment_results.any (fun r => decide (r.status = .SENT))
    let has_failed := segment_results.any (fun r => decide (r.status = .FAILED))
    let status : Status :=
      if has_sent ∧ ¬ has_failed then .SENT
      else if has_sent ∧ has_failed then .PARTIAL
      else if has_failed then .FAILED
      else .SKIPPED
    let http_code_conv := (segment_results.map (fun r => r.http_code_conv.getD 0)).foldr max 0
    let http_code_msgs := (segment_results.map (fun r => r.http_code_msgs.getD 0)).foldr max 0
    let failed_reasons :=
      ((segment_results.filter (fun r => decide (r.status = .FAILED) && otruthy r.reason)).map
        (fun r => r.reason.getD "")).dedup
    let reason := if failed_reasons.isEmpty then none
      else some (String.intercalate "; " failed_reasons)
    AggResult.mk job.session_id job.lote_id status reason http_code_conv http_code_msgs
      segment_results

/-! ## `_post_with_retry` (`drellia_client.py`)

The network is abstracted as a map from attempt index to that attempt's
outcome: a response (status code plus decoded JSON body), a
`requests.Timeout`, or some other exception (which the helper does not
catch). -/

/-- The decoded JSON body of a conversation-creation response.
`dataField = some d` models `body.get("data")` being present and truthy;
`id` models the top-level `"id"` entry. -/
structure ConvData where
  id : Option String
deriving DecidableEq, Repr

/-- A decoded response body (a failed `resp.json()` is the empty body
`ConvBody.mk none none`). -/
structure ConvBody where
  dataField : Option ConvData
  id : Option String
deriving DecidableEq, Repr

/-- The outcome of one HTTP POST attempt. -/
inductive Attempt where
  | resp (status : Nat) (body : ConvBody)
  | timeout (e : String)
  | exc (e : String)
deriving DecidableEq, Repr

/-- How `_post_with_retry` finishes: a returned response, the re-raised
`requests.Timeout` after exhaustion, or a propagated non-timeout
exception. -/
inductive PostResult where
  | ok (status : Nat) (body : ConvBody)
  | timedOut (e : String)
  | excOut (e : String)
deriving DecidableEq, Repr

/-- The observable behaviour of one `_post_with_retry` run: its result, the
number of POST attempts actually made, and the `time.sleep` durations in
order. -/
structure RetryRun where
  result : PostResult
  attempts : Nat
  sleeps : List Nat
deriving DecidableEq, Repr

/-- The `for attempt in range(max_retries + 1)` loop of `_post_with_retry`.
`attempt` is the current index and `remaining = max_retries - attempt`, so
`attempt < max_retries` holds exactly when `remaining` is a successor; the
sleep before a retry is `2 * (attempt + 1)` seconds. -/
def postLoop (net : Nat → Attempt) (retry_on_5xx : Bool) : Nat → Nat → RetryRun
  | attempt, remaining =>
    match net attempt, remaining with
    | .resp s b, rem + 1 =>
      if retry_on_5xx ∧ 500 ≤ s ∧ s < 600 then
        let run := postLoop net retry_on_5xx (attempt + 1) rem
        RetryRun.mk run.result (run.attempts + 1) (2 * (attempt + 1) :: run.sleeps)
      else RetryRun.mk (.ok s b) 1 []
    | .resp s b, 0 => RetryRun.mk (.ok s b) 1 []
    | .timeout _, rem + 1 =>
      let run := postLoop net retry_on_5xx (attempt + 1) rem
      RetryRun.mk run.result (run.attempts + 1) (2 * (attempt + 1) :: run.sleeps)
    | .timeout e, 0 => RetryRun.mk (.timedOut e) 1 []
    | .exc e, _ => RetryRun.mk (.excOut e) 1 []

/-- `_post_with_retry` (`drellia_client.py`): both call sites use
`max_retries=2, retry_on_5xx=True`. -/
def _post_with_retry (net : Nat → Attempt) (max_retries : Nat) (retry_on_5xx : Bool) : RetryRun :=
  postLoop net retry_on_5xx 0 max_retries

/-! ## Participant construction and employee resolution -/

/-- The configuration values `drellia_client.py` reads from `config`. -/
structure DConfig where
  provider_id : Option String
  bot_employee_id : Option String
deriving Repr

/-- The job fields the client reads. -/
structure Job where
  session_id : String
  lote_id : Option String
  agent_drellia_id : Option String
deriving DecidableEq, Repr

/-- Normalisation `(email or "").strip().lower() or None` used for agent
emails. -/
def normEmail (o : Option String) : Option String :=
  let s := pyLower (pyStrip (o.getD ""))
  if s = "" then none else some s

/-- `resolve_employee_id_for_actor` (`drellia_client.py`).  `agentDir`
abstracts `db.get_agent_by_email`: `some uuid` models a row whose
`drellia_uuid` is truthy (the code then returns `str(drellia_uuid)`), `none`
models no row or a falsy uuid. -/
def resolve_employee_id_for_actor (cfg : DConfig) (agentDir : String → Option String)
    (job : Job) (actor_type : ActorType) (actor_email : Option String) : Option String :=
  match actor_type with
  | .BOT =>
    if otruthy cfg.bot_employee_id then cfg.bot_employee_id
    else if otruthy job.agent_drellia_id then job.agent_drellia_id
    else none
  | .AGENT =>
    (match normEmail actor_email with
     | some e =>
       (match agentDir e with
        | some uuid => some uuid
        | none => if otruthy job.agent_drellia_id then job.agent_drellia_id else none)
     | none => if otruthy job.agent_drellia_id then job.agent_drellia_id else none)
  | _ => none

/-- The grouping key and normalised email `_build_participants_from_messages`
computes for one message: `BOT` collapses to the key `"BOT"`, agents group by
`"AGENT|" ++ email` (or `"AGENT|"` when the email is empty), and other actors
contribute nothing. -/
def msgKeyEmail (m : NMsg) : Option (String × Option String) :=
  match m.actor_type with
  | .BOT => some ("BOT", none)
  | .AGENT =>
    (match normEmail m.actor_email with
     | some e => some ("AGENT|" ++ e, some e)
     | none => some ("AGENT|", none))
  | _ => none

/-- Just the grouping key of a message. -/
def msgKey (m : NMsg) : Option String := (msgKeyEmail m).map Prod.fst

/-- One participant entry (the dict value of `participants[key]`). -/
structure PartInfo where
  actor_type : ActorType
  email : Option String
  count : Nat
  employee_id : Option String
deriving DecidableEq, Repr

/-- Insert-or-increment on the insertion-ordered participant dict. -/
def bump : List (String × PartInfo) → String → ActorType → Option String →
    List (String × PartInfo)
  | [], key, act, em => [(key, PartInfo.mk act em 1 none)]
  | (k, i) :: t, key, act, em =>
    if k = key then (k, PartInfo.mk i.actor_type i.email (i.count + 1) i.employee_id) :: t
    else (k, i) :: bump t key act em

/-- Phase 1 of `_build_participants_from_messages`: count messages per
participant key, in first-appearance order (Python dicts preserve insertion
order). -/
def countParticipants (msgs : List NMsg) : List (String × PartInfo) :=
  msgs.foldl (fun acc m =>
    match msgKeyEmail m with
    | some ke => bump acc ke.1 m.actor_type ke.2
    | none => acc) []

/-- `_build_participants_from_messages` (`drellia_client.py`): count, then
resolve an employee id for every participant (falsy resolutions are stored
as `None`). -/
def _build_participants_from_messages (cfg : DConfig) (agentDir : String → Option String)
    (job : Job) (msgs : List NMsg) : List (String × PartInfo) :=
  (countParticipants msgs).map (fun p =>
    let r := resolve_employee_id_for_actor cfg agentDir job p.2.actor_type p.2.email
    (p.1, PartInfo.mk p.2.actor_type p.2.email p.2.count (if otruthy r then r else none)))

/-- Python `max(iterable, key=...)` over counts: the first element with the
maximal count wins (a later element replaces the current best only when
strictly greater). -/
def pickMax : (String × PartInfo) → List (String × PartInfo) → (String × PartInfo)
  | best, [] => best
  | best, x :: xs => pickMax (if best.2.count < x.2.count then x else best) xs

/-- One entry of the messages payload sent to the conversation endpoint. -/
structure MsgPayload where
  content : String
  senderRole : String
  senderId : String
  timestamp : Int
  originalDateTime : Int
deriving DecidableEq, Repr

/-- `_build_messages_body_for_session` (`drellia_client.py`): customers map
to the customer id, bot/agent messages map through the participant table and
are dropped when their participant has no resolved employee id.  (The unused
`main_employee_id` parameter of the Python function is omitted.) -/
def _build_messages_body_for_session (msgs : List NMsg) (customer_id : String)
    (participants : List (String × PartInfo)) : List MsgPayload :=
  msgs.filterMap (fun m =>
    if m.content = "" then none
    else match m.actor_type with
    | .CUSTOMER => some (MsgPayload.mk m.content "customer" customer_id m.ts_ms m.ts_ms)
    | .BOT | .AGENT =>
      (match msgKeyEmail m with
       | some ke =>
         (match participants.lookup ke.1 with
          | some i =>
            (match i.employee_id with
             | some sid =>
               if sid = "" then none
               else some (MsgPayload.mk m.content "employee" sid m.ts_ms m.ts_ms)
             | none => none)
          | none => none)
       | none => none)
    | .UNKNOWN => none)

/-! ## `send_session_to_drellia` (`drellia_client.py`) -/

/-- One entry of the `segments` list of a successful session result. -/
structure SessSegment where
  conv_id : String
  main_employee_key : String
  main_employee_id : String
  n_messages : Nat
deriving DecidableEq, Repr

/-- The session-result dict returned by `send_session_to_drellia` and
`process_job`. -/
structure SessRes where
  session_id : String
  lote_id : Option String
  status : Status
  reason : Option String
  http_code_conv : Nat
  http_code_msgs : Nat
  segments : List SessSegment
deriving DecidableEq, Repr

/-- The collaborators of `send_session_to_drellia`: configuration, the agent
directory, the job, and one per-attempt network oracle for each of the two
endpoints.  The request payloads (API key header, providerId, employeeId,
customerId, originalDateTime, message bodies) are carried to the wire but do
not influence the client's control flow, which depends only on the response
status, the decoded body, and raised exceptions — exactly what the oracles
return. -/
structure SendDeps where
  cfg : DConfig
  agentDir : String → Option String
  job : Job
  convNet : Nat → Attempt
  msgsNet : Nat → Attempt

instance {α β : Type} [DecidableEq α] [DecidableEq β] : DecidableEq (Except α β) := fun a b =>
  match a, b with
  | .error x, .error y => decidable_of_iff (x = y) (by simp)
  | .ok x, .ok y => decidable_of_iff (x = y) (by simp)
  | .error _, .ok _ => isFalse (by simp)
  | .ok _, .error _ => isFalse (by simp)

/-- The full observable outcome of `send_session_to_drellia`: the returned
dict (or a propagated non-timeout exception), and whether each of the two
remote endpoints was actually called. -/
structure SendOut where
  res : Except String SessRes
  conv_called : Bool
  msgs_called : Bool
deriving DecidableEq, Repr

/-- `send_session_to_drellia` (`drellia_client.py`). -/
def send_session_to_drellia (d : SendDeps) (normalized_messages : List NMsg)
    (customer_id : String) : SendOut :=
  let session_id := d.job.session_id
  let lote_id := d.job.lote_id
  if ¬ otruthy d.cfg.provider_id then
    SendOut.mk (.ok (SessRes.mk session_id lote_id .FAILED
      (some "Falta DRELLIA_PROVIDER_ID en config") 0 0 [])) false false
  else
    let participants := _build_participants_from_messages d.cfg d.agentDir d.job
      normalized_messages
    if participants.isEmpty then
      SendOut.mk (.ok (SessRes.mk session_id lote_id .SKIPPED
        (some "NO_EMPLOYEES_IN_SESSION") 0 0 [])) false false
    else
      match participants.filter (fun p => otruthy p.2.employee_id) with
      | [] =>
        SendOut.mk (.ok (SessRes.mk session_id lote_id .SKIPPED
          (some "NO_RESOLVED_EMPLOYEE_IDS") 0 0 [])) false false
      | v :: vs =>
        let mainp := pickMax v vs
        let run := _post_with_retry d.convNet 2 true
        match run.result with
        | .timedOut e =>
          SendOut.mk (.ok (SessRes.mk session_id lote_id .FAILED
            (some ("EXCEPTION_TIMEOUT_CONV: " ++ e)) 0 0 [])) true false
        | .excOut e => SendOut.mk (.error e) true false
        | .ok s body =>
          if ¬ (s = 200 ∨ s = 201) then
            SendOut.mk (.ok (SessRes.mk session_id lote_id .FAILED
              (some "CONV_CREATE_FAILED") s 0 [])) true false
          else
            let conv_id := match body.dataField with
              | some dta => dta.id
              | none => body.id
            if ¬ otruthy conv_id then
              SendOut.mk (.ok (SessRes.mk session_id lote_id .FAILED
                (some "CONV_CREATE_NO_ID") s 0 [])) true false
            else
              let msgs_body := _build_messages_body_for_session normalized_messages
                customer_id participants
              if msgs_body.isEmpty then
                SendOut.mk (.ok (SessRes.mk session_id lote_id .SKIPPED
                  (some "NO_VALID_MESSAGES") s 0 [])) true false
              else
                let run2 := _post_with_retry d.msgsNet 2 true
                match run2.result with
                | .timedOut e =>
                  SendOut.mk (.ok (SessRes.mk session_id lote_id .FAILED
                    (some ("EXCEPTION_TIMEOUT_MSGS: " ++ e)) s 0 [])) true true
                | .excOut e => SendOut.mk (.error e) true true
                | .ok s2 _ =>
                  if ¬ (s2 = 200 ∨ s2 = 201) then
                    SendOut.mk (.ok (SessRes.mk session_id lote_id .FAILED
                      (some "MESSAGES_FAILED") s s2 [])) true true
                  else
                    SendOut.mk (.ok (SessRes.mk session_id lote_id .SENT none s s2
                      [SessSegment.mk (conv_id.getD "") mainp.1
                        (mainp.2.employee_id.getD "") msgs_body.length])) true true

/-! ## `process_job` (`main.py`)

`Except String α` models a Python call that either returns or raises; the
error payload is the exception text.  `get_pg_conn` is called before the
`try` block, so an exception there propagates out of `process_job`; every
other step runs inside the `try`. -/

/-- The collaborators and inputs of one `process_job` run. -/
structure ProcDeps where
  job : Job
  mensajes : RawInput
  cfg : DConfig
  agentDir : String → Option String
  convNet : Nat → Attempt
  msgsNet : Nat → Attempt
  get_pg_conn : Except String Unit
  ensure_customer_for_job : Except String (Option String)
  update_envio_status : SessRes → Except String Unit
  pandasParse : String → Option Int
  jsonDecode : String → Option JVal
  nowMs : Int

/-- The body of the `try` block of `process_job`: customer resolution,
normalization, dispatch, and the status write, any of which may raise. -/
def process_job_body (d : ProcDeps) : Except String SessRes :=
  let session_id := d.job.session_id
  let lote_id := d.job.lote_id
  match d.ensure_customer_for_job with
  | .error e => .error e
  | .ok customer_opt =>
    if ¬ otruthy customer_opt then
      let r := SessRes.mk session_id lote_id .FAILED (some "CUSTOMER_RESOLUTION_FAILED") 0 0 []
      (match d.update_envio_status r with
       | .error e => .error e
       | .ok _ => .ok r)
    else
      let normalized := normalize_messages d.pandasParse d.jsonDecode d.nowMs d.mensajes
      if normalized.isEmpty then
        let r := SessRes.mk session_id lote_id .SKIPPED (some "NO_VALID_MESSAGES") 0 0 []
        (match d.update_envio_status r with
         | .error e => .error e
         | .ok _ => .ok r)
      else
        match (send_session_to_drellia (SendDeps.mk d.cfg d.agentDir d.job d.convNet d.msgsNet)
            normalized (customer_opt.getD "")).res with
        | .error e => .error e
        | .ok r =>
          (match d.update_envio_status r with
           | .error e => .error e
           | .ok _ => .ok r)

/-- `process_job` (`main.py`): connection acquisition (outside the `try`),
the guarded body, and the generic `except` branch with its best-effort
FAILED status write.  The `finally` block only closes the connection and
swallows its own exceptions, so it does not affect the returned value. -/
def process_job (d : ProcDeps) : Except String SessRes :=
  match d.get_pg_conn with
  | .error e => .error e
  | .ok _ =>
    match process_job_body d with
    | .ok r => .ok r
    | .error e =>
      let r := SessRes.mk d.job.session_id d.job.lote_id .FAILED
        (some ("EXCEPTION: " ++ e)) 0 0 []
      (match d.update_envio_status r with
       | .ok _ => .ok r
       | .error _ => .ok (SessRes.mk d.job.session_id d.job.lote_id .FAILED
           (some ("EXCEPTION_NO_UPDATE: " ++ e)) 0 0 []))

/-! ## Helper lemmas -/

theorem foldrMax_le (l : List Nat) : ∀ x ∈ l, x ≤ l.foldr max 0 := by
  induction l with
  | nil => simp
  | cons a t ih =>
    intro x hx
    rcases List.mem_cons.mp hx with rfl | hx
    · simp only [List.foldr_cons]
      exact Nat.le_max_left _ _
    · simp only [List.foldr_cons]
      exact le_trans (ih x hx) (Nat.le_max_right _ _)

theorem foldrMax_mem (l : List Nat) : l.foldr max 0 = 0 ∨ l.foldr max 0 ∈ l := by
  induction l with
  | nil => simp
  | cons a t ih =>
    rcases Nat.le_total a (t.foldr max 0) with h | h
    · rcases ih with h0 | hm
      · left
        simp only [List.foldr_cons]
        rw [Nat.max_eq_right h, h0]
      · right
        simp only [List.foldr_cons]
        rw [Nat.max_eq_right h]
        exact List.mem_cons_of_mem _ hm
    · right
      simp only [List.foldr_cons]
      rw [Nat.max_eq_left h]
      exact List.mem_cons_self _ _

/-! ## C1: the aggregator -/

/-- C1.  `aggregate_session_result` maps the empty segment list to
SKIPPED/NO_SEGMENTS; otherwise its status is SENT when some segment is SENT
and none FAILED, PARTIAL when both occur, FAILED when some segment FAILED
and none is SENT, and SKIPPED otherwise; each HTTP code is the maximum of
the corresponding segment codes (0 when absent); and the reason is the
deduplicated set of reasons of FAILED segments joined by `"; "`, absent when
no FAILED segment carries a reason. -/
theorem aggregate_session_result_spec (job : JobIds) (segs : List SegResult) :
    (segs = [] →
      aggregate_session_result job segs =
        AggResult.mk job.session_id job.lote_id .SKIPPED (some "NO_SEGMENTS") 0 0 [])
    ∧ ((∃ r ∈ segs, r.status = .SENT) → (∀ r ∈ segs, r.status ≠ .FAILED) →
        (aggregate_session_result job segs).status = .SENT)
    ∧ ((∃ r ∈ segs, r.status = .SENT) → (∃ r ∈ segs, r.status = .FAILED) →
        (aggregate_session_result job segs).status = .PARTIAL)
    ∧ ((∃ r ∈ segs, r.status = .FAILED) → (∀ r ∈ segs, r.status ≠ .SENT) →
        (aggregate_session_result job segs).status = .FAILED)
    ∧ (segs ≠ [] → (∀ r ∈ segs, r.status ≠ .SENT ∧ r.status ≠ .FAILED) →
        (aggregate_session_result job segs).status = .SKIPPED)
    ∧ ((∀ r ∈ segs, r.http_code_conv.getD 0 ≤ (aggregate_session_result job segs).http_code_conv)
        ∧ ((aggregate_session_result job segs).http_code_conv = 0 ∨
           ∃ r ∈ segs, r.http_code_conv.getD 0 = (aggregate_session_result job segs).http_code_conv))
    ∧ ((∀ r ∈ segs, r.http_code_msgs.getD 0 ≤ (aggregate_session_result job segs).http_code_msgs)
        ∧ ((aggregate_session_result job segs).http_code_msgs = 0 ∨
           ∃ r ∈ segs, r.http_code_msgs.getD 0 = (aggregate_session_result job segs).http_code_msgs))
    ∧ (segs ≠ [] →
        ((aggregate_session_result job segs).reason = none ↔
          ∀ r ∈ segs, r.status = .FAILED → ¬ otruthy r.reason))
    ∧ (segs ≠ [] → ∀ s, (aggregate_session_result job segs).reason = some s →
        ∃ L : List String, s = String.intercalate "; " L ∧ L.Nodup ∧
          ∀ x, x ∈ L ↔ ∃ r ∈ segs, r.status = .FAILED ∧ r.reason = some x ∧ x ≠ "") := by
  rcases segs with _ | ⟨a, t⟩
  · refine ⟨fun _ => rfl, ?_, ?_, ?_, ?_, ?_, ?_, ?_, ?_⟩ <;>
      simp [aggregate_session_result]
  constructor
  · intro h
    exact absurd h (by simp)
  constructor
  · rintro ⟨r, hr, hrs⟩ hf
    have hs : (a :: t).any (fun r => decide (r.status = .SENT)) = true :=
      List.any_eq_true.mpr ⟨r, hr, by simp [hrs]⟩
    have hfb : (a :: t).any (fun r => decide (r.status = .FAILED)) = false := by
      rw [List.any_eq_false]
      intro x hx
      simp [hf x hx]
    simp [aggregate_session_result, hs, hfb]
  constructor
  · rintro ⟨r, hr, hrs⟩ ⟨q, hq, hqs⟩
    have hs : (a :: t).any (fun r => decide (r.status = .SENT)) = true :=
      List.any_eq_true.mpr ⟨r, hr, by simp [hrs]⟩
    have hfb : (a :: t).any (fun r => decide (r.status = .FAILED)) = true :=
      List.any_eq_true.mpr ⟨q, hq, by simp [hqs]⟩
    simp [aggregate_session_result, hs, hfb]
  constructor
  · rintro ⟨r, hr, hrs⟩ hns
    have hs : (a :: t).any (fun r => decide (r.status = .SENT)) = false := by
      rw [List.any_eq_false]
      intro x hx
      simp [hns x hx]
    have hfb : (a :: t).any (fun r => decide (r.status = .FAILED)) = true :=
      List.any_eq_true.mpr ⟨r, hr, by simp [hrs]⟩
    simp [aggregate_session_result, hs, hfb]
  constructor
  · intro _ h
    have hs : (a :: t).any (fun r => decide (r.status = .SENT)) = false := by
      rw [List.any_eq_false]
      intro x hx
      simp [(h x hx).1]
    have hfb : (a :: t).any (fun r => decide (r.status = .FAILED)) = false := by
      rw [List.any_eq_false]
      intro x hx
      simp [(h x hx).2]
    simp [aggregate_session_result, hs, hfb]
  constructor
  · constructor
    · intro r hr
      have : r.http_code_conv.getD 0 ∈ (a :: t).map (fun r => r.http_code_conv.getD 0) :=
        List.mem_map.mpr ⟨r, hr, rfl⟩
      simpa [aggregate_session_result] using foldrMax_le _ _ this
    · rcases foldrMax_mem ((a :: t).map (fun r => r.http_code_conv.getD 0)) with h0 | hm
      · left
        simpa [aggregate_session_result] using h0
      · right
        rcases List.mem_map.mp hm with ⟨r, hr, hrv⟩
        exact ⟨r, hr, by simpa [aggregate_session_result] using hrv⟩
  constructor
  · constructor
    · intro r hr
      have : r.http_code_msgs.getD 0 ∈ (a :: t).map (fun r => r.http_code_msgs.getD 0) :=
        List.mem_map.mpr ⟨r, hr, rfl⟩
      simpa [aggregate_session_result] using foldrMax_le _ _ this
    · rcases foldrMax_mem ((a :: t).map (fun r => r.http_code_msgs.getD 0)) with h0 | hm
      · left
        simpa [aggregate_session_result] using h0
      · right
        rcases List.mem_map.mp hm with ⟨r, hr, hrv⟩
        exact ⟨r, hr, by simpa [aggregate_session_result] using hrv⟩
  constructor
  · intro _
    constructor
    · intro hnone r hr hrs
      by_contra htr
      have hmem : r.reason.getD "" ∈
          (((a :: t).filter (fun r => decide (r.status = .FAILED) && otruthy r.reason)).map
            (fun r => r.reason.getD "")).dedup := by
        rw [List.mem_dedup]
        exact List.mem_map.mpr ⟨r, List.mem_filter.mpr ⟨hr, by simp [hrs, htr]⟩, rfl⟩
      rcases hL : (((a :: t).filter (fun r => decide (r.status = .FAILED) && otruthy r.reason)).map
          (fun r => r.reason.getD "")).dedup with _ | ⟨x, xs⟩
      · rw [hL] at hmem
        simp at hmem
      · simp [aggregate_session_result, hL] at hnone
    · intro hall
      have hfil : (a :: t).filter (fun r => decide (r.status = .FAILED) && otruthy r.reason) = [] := by
        rw [List.filter_eq_nil_iff]
        intro r hr
        simp only [Bool.and_eq_true, decide_eq_true_eq, not_and]
        intro hrs
        simp [hall r hr hrs]
      simp [aggregate_session_result, hfil]
  · intro _ s hsome
    have hemp : (((a :: t).filter (fun r => decide (r.status = .FAILED) && otruthy r.reason)).map
        (fun r => r.reason.getD "")).dedup.isEmpty = false := by
      by_contra hc
      rw [Bool.not_eq_false, List.isEmpty_iff] at hc
      simp [aggregate_session_result, hc] at hsome
    have hval : s = String.intercalate "; "
        ((((a :: t).filter (fun r => decide (r.status = .FAILED) && otruthy r.reason)).map
          (fun r => r.reason.getD "")).dedup) := by
      rw [Bool.eq_false_iff, Ne, List.isEmpty_iff] at hemp
      simp [aggregate_session_result, hemp] at hsome
      exact hsome.symm
    refine ⟨_, hval, List.nodup_dedup _, ?_⟩
    intro x
    rw [List.mem_dedup, List.mem_map]
    constructor
    · rintro ⟨r, hr, hrv⟩
      rcases List.mem_filter.mp hr with ⟨hmem, hp⟩
      simp only [Bool.and_eq_true, decide_eq_true_eq] at hp
      rcases hp with ⟨hst, htr⟩
      rcases hre : r.reason with _ | s0
      · rw [hre] at htr
        simp [otruthy] at htr
      · rw [hre] at htr hrv
        simp only [otruthy, decide_eq_true_eq] at htr
        simp only [Option.getD_some] at hrv
        exact ⟨r, hmem, hst, by rw [hre, hrv], by rw [← hrv]; exact htr⟩
    · rintro ⟨r, hr, hst, hre, hxne⟩
      refine ⟨r, List.mem_filter.mpr ⟨hr, ?_⟩, ?_⟩
      · simp [hst, hre, otruthy, hxne]
      · simp [hre]

/-- Witness for C1: a SENT and a FAILED segment aggregate to PARTIAL. -/
theorem aggregate_session_result_spec_witness :
    (aggregate_session_result (JobIds.mk "s1" none)
      [SegResult.mk .SENT none (some 201) (some 200),
       SegResult.mk .FAILED (some "MESSAGES_FAILED") (some 500) none]).status = .PARTIAL :=
  (aggregate_session_result_spec (JobIds.mk "s1" none)
      [SegResult.mk .SENT none (some 201) (some 200),
       SegResult.mk .FAILED (some "MESSAGES_FAILED") (some 500) none]).2.2.1
    ⟨SegResult.mk .SENT none (some 201) (some 200), by decide, rfl⟩
    ⟨SegResult.mk .FAILED (some "MESSAGES_FAILED") (some 500) none, by decide, rfl⟩

/-! ## C2: the retry helper

Equation lemmas for `postLoop`, one per branch of the loop body. -/

theorem postLoop_exc (net : Nat → Attempt) (r5 : Bool) (a rem : Nat) (e : String)
    (hn : net a = .exc e) :
    postLoop net r5 a rem = RetryRun.mk (.excOut e) 1 [] := by
  rw [postLoop.eq_def]
  simp only [hn]

theorem postLoop_resp_last (net : Nat → Attempt) (r5 : Bool) (a : Nat) (s : Nat) (b : ConvBody)
    (hn : net a = .resp s b) :
    postLoop net r5 a 0 = RetryRun.mk (.ok s b) 1 [] := by
  rw [postLoop.eq_def]
  simp only [hn]

theorem postLoop_resp_noretry (net : Nat → Attempt) (r5 : Bool) (a rem : Nat) (s : Nat)
    (b : ConvBody) (hn : net a = .resp s b) (hc : ¬ (r5 = true ∧ 500 ≤ s ∧ s < 600)) :
    postLoop net r5 a (rem + 1) = RetryRun.mk (.ok s b) 1 [] := by
  rw [postLoop.eq_def]
  simp only [hn]
  rw [if_neg hc]

theorem postLoop_resp_retry (net : Nat → Attempt) (r5 : Bool) (a rem : Nat) (s : Nat)
    (b : ConvBody) (hn : net a = .resp s b) (hc : r5 = true ∧ 500 ≤ s ∧ s < 600) :
    postLoop net r5 a (rem + 1) =
      RetryRun.mk (postLoop net r5 (a + 1) rem).result
        ((postLoop net r5 (a + 1) rem).attempts + 1)
        (2 * (a + 1) :: (postLoop net r5 (a + 1) rem).sleeps) := by
  rw [postLoop.eq_def]
  simp only [hn]
  rw [if_pos hc]

theorem postLoop_timeout_last (net : Nat → Attempt) (r5 : Bool) (a : Nat) (e : String)
    (hn : net a = .timeout e) :
    postLoop net r5 a 0 = RetryRun.mk (.timedOut e) 1 [] := by
  rw [postLoop.eq_def]
  simp only [hn]

theorem postLoop_timeout_retry (net : Nat → Attempt) (r5 : Bool) (a rem : Nat) (e : String)
    (hn : net a = .timeout e) :
    postLoop net r5 a (rem + 1) =
      RetryRun.mk (postLoop net r5 (a + 1) rem).result
        ((postLoop net r5 (a + 1) rem).attempts + 1)
        (2 * (a + 1) :: (postLoop net r5 (a + 1) rem).sleeps) := by
  rw [postLoop.eq_def]
  simp only [hn]

theorem postLoop_attempts_pos (net : Nat → Attempt) (r5 : Bool) (a rem : Nat) :
    1 ≤ (postLoop net r5 a rem).attempts := by
  rcases hn : net a with ⟨s, b⟩ | e | e
  · rcases rem with _ | rem
    · rw [postLoop_resp_last net r5 a s b hn]
    · by_cases hc : r5 = true ∧ 500 ≤ s ∧ s < 600
      · rw [postLoop_resp_retry net r5 a rem s b hn hc]
        simp
      · rw [postLoop_resp_noretry net r5 a rem s b hn hc]
  · rcases rem with _ | rem
    · rw [postLoop_timeout_last net r5 a e hn]
    · rw [postLoop_timeout_retry net r5 a rem e hn]
      simp
  · rw [postLoop_exc net r5 a rem e hn]

theorem postLoop_attempts_le (net : Nat → Attempt) (r5 : Bool) :
    ∀ rem a, (postLoop net r5 a rem).attempts ≤ rem + 1 := by
  intro rem
  induction rem with
  | zero =>
    intro a
    rcases hn : net a with ⟨s, b⟩ | e | e
    · rw [postLoop_resp_last net r5 a s b hn]
    · rw [postLoop_timeout_last net r5 a e hn]
    · rw [postLoop_exc net r5 a 0 e hn]
  | succ rem ih =>
    intro a
    rcases hn : net a with ⟨s, b⟩ | e | e
    · by_cases hc : r5 = true ∧ 500 ≤ s ∧ s < 600
      · rw [postLoop_resp_retry net r5 a rem s b hn hc]
        have := ih (a + 1)
        show (postLoop net r5 (a + 1) rem).attempts + 1 ≤ rem + 1 + 1
        omega
      · rw [postLoop_resp_noretry net r5 a rem s b hn hc]
        simp
    · rw [postLoop_timeout_retry net r5 a rem e hn]
      have := ih (a + 1)
      show (postLoop net r5 (a + 1) rem).attempts + 1 ≤ rem + 1 + 1
      omega
    · rw [postLoop_exc net r5 a (rem + 1) e hn]
      simp

theorem postLoop_sleeps (net : Nat → Attempt) (r5 : Bool) :
    ∀ rem a, (postLoop net r5 a rem).sleeps =
      (List.range ((postLoop net r5 a rem).attempts - 1)).map (fun i => 2 * (a + i + 1)) := by
  intro rem
  induction rem with
  | zero =>
    intro a
    rcases hn : net a with ⟨s, b⟩ | e | e
    · rw [postLoop_resp_last net r5 a s b hn]
      simp
    · rw [postLoop_timeout_last net r5 a e hn]
      simp
    · rw [postLoop_exc net r5 a 0 e hn]
      simp
  | succ rem ih =>
    intro a
    have hstep : (2 * (a + 1) :: (postLoop net r5 (a + 1) rem).sleeps) =
        (List.range ((postLoop net r5 (a + 1) rem).attempts + 1 - 1)).map
          (fun i => 2 * (a + i + 1)) := by
      have h1 := postLoop_attempts_pos net r5 (a + 1) rem
      rw [ih (a + 1)]
      rw [show (postLoop net r5 (a + 1) rem).attempts + 1 - 1
          = ((postLoop net r5 (a + 1) rem).attempts - 1) + 1 by omega]
      rw [List.range_succ_eq_map]
      simp only [List.map_cons, List.map_map]
      congr 1
      apply List.map_congr_left
      intro i _
      simp only [Function.comp_apply]
      omega
    rcases hn : net a with ⟨s, b⟩ | e | e
    · by_cases hc : r5 = true ∧ 500 ≤ s ∧ s < 600
      · rw [postLoop_resp_retry net r5 a rem s b hn hc]
        exact hstep
      · rw [postLoop_resp_noretry net r5 a rem s b hn hc]
        simp
    · rw [postLoop_timeout_retry net r5 a rem e hn]
      exact hstep
    · rw [postLoop_exc net r5 a (rem + 1) e hn]
      simp

theorem postLoop_retry_reason (net : Nat → Attempt) (r5 : Bool) :
    ∀ rem a j, j + 1 < (postLoop net r5 a rem).attempts →
      (∃ e, net (a + j) = .timeout e) ∨
      (∃ s b, net (a + j) = .resp s b ∧ 500 ≤ s ∧ s < 600 ∧ r5 = true) := by
  intro rem
  induction rem with
  | zero =>
    intro a j h
    rcases hn : net a with ⟨s, b⟩ | e | e
    · rw [postLoop_resp_last net r5 a s b hn] at h
      exact absurd h (by simp)
    · rw [postLoop_timeout_last net r5 a e hn] at h
      exact absurd h (by simp)
    · rw [postLoop_exc net r5 a 0 e hn] at h
      exact absurd h (by simp)
  | succ rem ih =>
    intro a j h
    rcases hn : net a with ⟨s, b⟩ | e | e
    · by_cases hc : r5 = true ∧ 500 ≤ s ∧ s < 600
      · rw [postLoop_resp_retry net r5 a rem s b hn hc] at h
        have h2 : j + 1 < (postLoop net r5 (a + 1) rem).attempts + 1 := h
        rcases j with _ | j
        · right
          exact ⟨s, b, by simpa using hn, hc.2.1, hc.2.2, hc.1⟩
        · rcases ih (a + 1) j (by omega) with h1 | h1
          · left
            rcases h1 with ⟨e, he⟩
            exact ⟨e, by rw [show a + (j + 1) = a + 1 + j by omega]; exact he⟩
          · right
            rcases h1 with ⟨s1, b1, hb, h5, h6, h7⟩
            exact ⟨s1, b1, by rw [show a + (j + 1) = a + 1 + j by omega]; exact hb, h5, h6, h7⟩
      · rw [postLoop_resp_noretry net r5 a rem s b hn hc] at h
        exact absurd h (by simp)
    · rw [postLoop_timeout_retry net r5 a rem e hn] at h
      have h2 : j + 1 < (postLoop net r5 (a + 1) rem).attempts + 1 := h
      rcases j with _ | j
      · left
        exact ⟨e, by simpa using hn⟩
      · rcases ih (a + 1) j (by omega) with h1 | h1
        · left
          rcases h1 with ⟨e1, he⟩
          exact ⟨e1, by rw [show a + (j + 1) = a + 1 + j by omega]; exact he⟩
        · right
          rcases h1 with ⟨s1, b1, hb, h5, h6, h7⟩
          exact ⟨s1, b1, by rw [show a + (j + 1) = a + 1 + j by omega]; exact hb, h5, h6, h7⟩
    · rw [postLoop_exc net r5 a (rem + 1) e hn] at h
      exact absurd h (by simp)

/-- C2.  With the budget used at both call sites (`max_retries = 2`,
`retry_on_5xx = True`), `_post_with_retry` makes at most 3 attempts; its
backoff sleeps are `2 * (attempt + 1)` seconds, linear in the attempt number;
an attempt is followed by a further attempt only when it timed out or
returned a 5xx status; a first non-5xx response (for example a 400) is
returned immediately with no retry and no sleep; a 503 followed by a non-5xx
response within the budget yields that response; three timeouts re-raise the
last timeout (a terminal timeout); and three 5xx responses return the last
5xx response rather than retrying further. -/
theorem post_with_retry_spec (net : Nat → Attempt) :
    ((_post_with_retry net 2 true).attempts ≤ 3)
    ∧ ((_post_with_retry net 2 true).sleeps =
        (List.range ((_post_with_retry net 2 true).attempts - 1)).map (fun i => 2 * (i + 1)))
    ∧ (∀ j, j + 1 < (_post_with_retry net 2 true).attempts →
        (∃ e, net j = .timeout e) ∨ (∃ s b, net j = .resp s b ∧ 500 ≤ s ∧ s < 600))
    ∧ (∀ s b, net 0 = .resp s b → ¬ (500 ≤ s ∧ s < 600) →
        _post_with_retry net 2 true = RetryRun.mk (.ok s b) 1 [])
    ∧ (∀ s1 b1 s2 b2, net 0 = .resp s1 b1 → 500 ≤ s1 → s1 < 600 →
        net 1 = .resp s2 b2 → ¬ (500 ≤ s2 ∧ s2 < 600) →
        (_post_with_retry net 2 true).result = .ok s2 b2)
    ∧ ((∀ j, j ≤ 2 → ∃ e, net j = .timeout e) →
        ∃ e, net 2 = .timeout e ∧ (_post_with_retry net 2 true).result = .timedOut e ∧
          (_post_with_retry net 2 true).attempts = 3)
    ∧ ((∀ j, j ≤ 2 → ∃ s b, net j = .resp s b ∧ 500 ≤ s ∧ s < 600) →
        ∃ s b, net 2 = .resp s b ∧ (_post_with_retry net 2 true).result = .ok s b ∧
          (_post_with_retry net 2 true).attempts = 3) := by
  refine ⟨postLoop_attempts_le net true 2 0, ?_, ?_, ?_, ?_, ?_, ?_⟩
  · rw [show _post_with_retry net 2 true = postLoop net true 0 2 from rfl,
      postLoop_sleeps net true 2 0]
    apply List.map_congr_left
    intro i _
    omega
  · intro j hj
    rcases postLoop_retry_reason net true 2 0 j (by simpa using hj) with h | h
    · left
      simpa using h
    · right
      rcases h with ⟨s, b, hb, h5, h6, _⟩
      exact ⟨s, b, by simpa using hb, h5, h6⟩
  · intro s b hn hns
    have hc : ¬ (true = true ∧ 500 ≤ s ∧ s < 600) := fun hcon => hns hcon.2
    exact postLoop_resp_noretry net true 0 1 s b hn hc
  · intro s1 b1 s2 b2 h0 h5a h5b h1 hns
    have hc1 : true = true ∧ 500 ≤ s1 ∧ s1 < 600 := ⟨rfl, h5a, h5b⟩
    have hc2 : ¬ (true = true ∧ 500 ≤ s2 ∧ s2 < 600) := fun hcon => hns hcon.2
    show (postLoop net true 0 (1 + 1)).result = .ok s2 b2
    rw [postLoop_resp_retry net true 0 1 s1 b1 h0 hc1]
    show (postLoop net true 1 (0 + 1)).result = .ok s2 b2
    rw [postLoop_resp_noretry net true 1 0 s2 b2 h1 hc2]
  · intro hall
    rcases hall 0 (by omega) with ⟨e0, h0⟩
    rcases hall 1 (by omega) with ⟨e1, h1⟩
    rcases hall 2 (by omega) with ⟨e2, h2⟩
    refine ⟨e2, h2, ?_, ?_⟩
    · show (postLoop net true 0 (1 + 1)).result = .timedOut e2
      rw [postLoop_timeout_retry net true 0 1 e0 h0]
      show (postLoop net true 1 (0 + 1)).result = .timedOut e2
      rw [postLoop_timeout_retry net true 1 0 e1 h1]
      show (postLoop net true 2 0).result = .timedOut e2
      rw [postLoop_timeout_last net true 2 e2 h2]
    · show (postLoop net true 0 (1 + 1)).attempts = 3
      rw [postLoop_timeout_retry net true 0 1 e0 h0]
      show (postLoop net true 1 (0 + 1)).attempts + 1 = 3
      rw [postLoop_timeout_retry net true 1 0 e1 h1]
      show ((postLoop net true 2 0).attempts + 1) + 1 = 3
      rw [postLoop_timeout_last net true 2 e2 h2]
  · intro hall
    rcases hall 0 (by omega) with ⟨s0, b0, h0, h0a, h0b⟩
    rcases hall 1 (by omega) with ⟨s1, b1, h1, h1a, h1b⟩
    rcases hall 2 (by omega) with ⟨s2, b2, h2, h2a, h2b⟩
    refine ⟨s2, b2, h2, ?_, ?_⟩
    · show (postLoop net true 0 (1 + 1)).result = .ok s2 b2
      rw [postLoop_resp_retry net true 0 1 s0 b0 h0 ⟨rfl, h0a, h0b⟩]
      show (postLoop net true 1 (0 + 1)).result = .ok s2 b2
      rw [postLoop_resp_retry net true 1 0 s1 b1 h1 ⟨rfl, h1a, h1b⟩]
      show (postLoop net true 2 0).result = .ok s2 b2
      rw [postLoop_resp_last net true 2 s2 b2 h2]
    · show (postLoop net true 0 (1 + 1)).attempts = 3
      rw [postLoop_resp_retry net true 0 1 s0 b0 h0 ⟨rfl, h0a, h0b⟩]
      show (postLoop net true 1 (0 + 1)).attempts + 1 = 3
      rw [postLoop_resp_retry net true 1 0 s1 b1 h1 ⟨rfl, h1a, h1b⟩]
      show ((postLoop net true 2 0).attempts + 1) + 1 = 3
      rw [postLoop_resp_last net true 2 s2 b2 h2]

/-- Witness for C2: a 503 on the first attempt followed by a 200 on the
second yields the 200 response. -/
theorem post_with_retry_spec_witness :
    (_post_with_retry
      (fun n => if n = 0 then .resp 503 (ConvBody.mk none none)
                else .resp 200 (ConvBody.mk none (some "c1"))) 2 true).result
      = .ok 200 (ConvBody.mk none (some "c1")) :=
  (post_with_retry_spec
      (fun n => if n = 0 then .resp 503 (ConvBody.mk none none)
                else .resp 200 (ConvBody.mk none (some "c1")))).2.2.2.2.1
    503 (ConvBody.mk none none) 200 (ConvBody.mk none (some "c1"))
    rfl (by omega) (by omega) rfl (by omega)

/-! ## Lemmas about `pyStrip` -/

theorem dropWhile_dropWhile (p : Char → Bool) (l : List Char) :
    (l.dropWhile p).dropWhile p = l.dropWhile p := by
  induction l with
  | nil => rfl
  | cons a t ih =>
    rw [List.dropWhile_cons]
    split
    · exact ih
    · rw [List.dropWhile_cons]
      simp [*]

theorem dropWhile_head_not (p : Char → Bool) (l : List Char) :
    ∀ b t, l.dropWhile p = b :: t → p b = false := by
  induction l with
  | nil => intro b t h; simp at h
  | cons a l ih =>
    intro b t h
    rw [List.dropWhile_cons] at h
    split at h
    · exact ih b t h
    · cases h
      simp_all

theorem dropWhile_suffix_exists (p : Char → Bool) (l : List Char) :
    ∃ t, t ++ l.dropWhile p = l := by
  induction l with
  | nil => exact ⟨[], rfl⟩
  | cons a l ih =>
    rw [List.dropWhile_cons]
    split
    · rcases ih with ⟨t, ht⟩
      exact ⟨a :: t, by simp [ht]⟩
    · exact ⟨[], rfl⟩

theorem stripChars_idem (cs : List Char) : stripChars (stripChars cs) = stripChars cs := by
  rcases dropWhile_suffix_exists Char.isWhitespace
      (cs.dropWhile Char.isWhitespace).reverse with ⟨t, ht⟩
  have hBpre : stripChars cs ++ t.reverse = cs.dropWhile Char.isWhitespace := by
    rw [stripChars, ← List.reverse_append, ht, List.reverse_reverse]
  have hrevB : (stripChars cs).reverse =
      (cs.dropWhile Char.isWhitespace).reverse.dropWhile Char.isWhitespace := by
    rw [stripChars, List.reverse_reverse]
  have h1 : (stripChars cs).dropWhile Char.isWhitespace = stripChars cs := by
    rcases hB : stripChars cs with _ | ⟨b, B2⟩
    · rfl
    · have hAeq : cs.dropWhile Char.isWhitespace = b :: (B2 ++ t.reverse) := by
        rw [← hBpre, hB]
        simp
      have hpb : Char.isWhitespace b = false :=
        dropWhile_head_not Char.isWhitespace cs b (B2 ++ t.reverse) hAeq
      rw [List.dropWhile_cons, if_neg (by simp [hpb])]
  have h2 : (stripChars cs).reverse.dropWhile Char.isWhitespace = (stripChars cs).reverse := by
    rw [hrevB, dropWhile_dropWhile]
  show (((stripChars cs).dropWhile Char.isWhitespace).reverse.dropWhile
      Char.isWhitespace).reverse = stripChars cs
  rw [h1, h2, List.reverse_reverse]

theorem pyStrip_idem (s : String) : pyStrip (pyStrip s) = pyStrip s := by
  rw [pyStrip, pyStrip]
  exact congrArg String.mk (stripChars_idem s.data)

/-! ## Facts about `processItem` -/

theorem processItem_some_spec (pp : String → Option Int) (now : Int) (it : RawItem) (m : NMsg)
    (h : processItem pp now it = some m) :
    m.content ≠ "" ∧ pyStrip m.content = m.content ∧
    placeholders.contains m.content = false ∧ m.actor_type ≠ .UNKNOWN ∧
    (∃ r, it = .rdict r ∧ ∃ c, r.mensaje = some c ∧ m.content = pyStrip c ∧
      m.ts_ms = (parse_timestamp_to_ms pp r.message_time).getD now ∧
      m.actor_type = (resolve_actor r.us_origen r).1 ∧
      m.actor_email = (resolve_actor r.us_origen r).2) := by
  rcases it with r | _
  case rother => simp [processItem] at h
  simp only [processItem] at h
  rcases hm : r.mensaje with _ | c
  · rw [hm] at h
    simp at h
  rw [hm] at h
  simp only at h
  by_cases h1 : pyStrip c = ""
  · rw [if_pos h1] at h
    simp at h
  rw [if_neg h1] at h
  by_cases h2 : placeholders.contains (pyStrip c) = true
  · rw [if_pos h2] at h
    simp at h
  rw [if_neg h2] at h
  by_cases h3 : (resolve_actor r.us_origen r).1 = .UNKNOWN
  · rw [if_pos h3] at h
    simp at h
  rw [if_neg h3] at h
  injection h with h
  subst h
  refine ⟨h1, pyStrip_idem c, by simpa using h2, h3, r, rfl, c, hm, rfl, rfl, rfl, rfl⟩

theorem processItem_keeps (pp : String → Option Int) (now : Int) (r : RawMsg) (c : String)
    (hm : r.mensaje = some c) (h1 : pyStrip c ≠ "")
    (h2 : placeholders.contains (pyStrip c) = false)
    (h3 : (resolve_actor r.us_origen r).1 ≠ .UNKNOWN) :
    processItem pp now (.rdict r) =
      some (NMsg.mk ((parse_timestamp_to_ms pp r.message_time).getD now)
        (resolve_actor r.us_origen r).1 (resolve_actor r.us_origen r).2 (pyStrip c) r) := by
  simp only [processItem, hm]
  rw [if_neg h1, if_neg (by rw [h2]; simp), if_neg h3]

/-! ## C6: normalizer output invariant -/

/-- C6.  Every message in the output of `normalize_messages` has non-empty,
trimmed content, content outside the placeholder set, and an actor type in
{CUSTOMER, BOT, AGENT}: records with empty or placeholder content, or an
origin classified UNKNOWN, never appear. -/
theorem normalize_messages_invariant (pp : String → Option Int) (jd : String → Option JVal)
    (now : Int) (raw : RawInput) :
    ∀ m ∈ normalize_messages pp jd now raw,
      m.content ≠ "" ∧ pyStrip m.content = m.content ∧
      placeholders.contains m.content = false ∧
      (m.actor_type = .CUSTOMER ∨ m.actor_type = .BOT ∨ m.actor_type = .AGENT) := by
  intro m hm
  rw [normalize_messages, List.mem_mergeSort, preNormalize, List.mem_filterMap] at hm
  rcases hm with ⟨it, _, hit⟩
  have h := processItem_some_spec pp now it m hit
  refine ⟨h.1, h.2.1, h.2.2.1, ?_⟩
  have h4 := h.2.2.2.1
  rcases hA : m.actor_type
  · left; rfl
  · right; left; rfl
  · right; right; rfl
  · exact absurd hA h4

/-- Witness for C6: a concrete raw list with one surviving customer message. -/
theorem normalize_messages_invariant_witness :
    (NMsg.mk 5 .CUSTOMER none "hola"
        (RawMsg.mk (some " hola ") .pynone (some "user") none none none none none)).content ≠ ""
    ∧ pyStrip (NMsg.mk 5 .CUSTOMER none "hola"
        (RawMsg.mk (some " hola ") .pynone (some "user") none none none none none)).content
      = (NMsg.mk 5 .CUSTOMER none "hola"
        (RawMsg.mk (some " hola ") .pynone (some "user") none none none none none)).content
    ∧ placeholders.contains (NMsg.mk 5 .CUSTOMER none "hola"
        (RawMsg.mk (some " hola ") .pynone (some "user") none none none none none)).content = false
    ∧ ((NMsg.mk 5 .CUSTOMER none "hola"
        (RawMsg.mk (some " hola ") .pynone (some "user") none none none none none)).actor_type
          = .CUSTOMER
      ∨ (NMsg.mk 5 .CUSTOMER none "hola"
        (RawMsg.mk (some " hola ") .pynone (some "user") none none none none none)).actor_type
          = .BOT
      ∨ (NMsg.mk 5 .CUSTOMER none "hola"
        (RawMsg.mk (some " hola ") .pynone (some "user") none none none none none)).actor_type
          = .AGENT) := by
  apply normalize_messages_invariant (fun _ => none) (fun _ => none) 5
    (.rlist [.rdict (RawMsg.mk (some " hola ") .pynone (some "user") none none none none none)])
  have hpre : preNormalize (fun _ => none) (fun _ => none) 5
      (.rlist [.rdict (RawMsg.mk (some " hola ") .pynone (some "user") none none none none none)])
      = [NMsg.mk 5 .CUSTOMER none "hola"
          (RawMsg.mk (some " hola ") .pynone (some "user") none none none none none)] := by
    rfl
  rw [normalize_messages, hpre, List.mergeSort_singleton]
  exact List.mem_singleton.mpr rfl

/-! ## C5: output sorted, stable on ties -/

theorem tsLe_trans : ∀ a b c : NMsg, tsLe a b → tsLe b c → tsLe a c := by
  intro a b c hab hbc
  simp only [tsLe, decide_eq_true_eq] at *
  omega

theorem tsLe_total : ∀ a b : NMsg, tsLe a b || tsLe b a := by
  intro a b
  simp only [tsLe]
  by_cases h : a.ts_ms ≤ b.ts_ms
  · simp [h]
  · simp only [Bool.or_eq_true, decide_eq_true_eq]
    right
    omega

/-- C5.  The output of `normalize_messages` is sorted ascending by
`ts_ms`, and for every timestamp the messages carrying it appear in the same
relative order as in the parsed, filtered input (`preNormalize`): the sort is
stable. -/
theorem normalize_messages_sorted_stable (pp : String → Option Int) (jd : String → Option JVal)
    (now : Int) (raw : RawInput) :
    List.Pairwise (fun a b : NMsg => a.ts_ms ≤ b.ts_ms) (normalize_messages pp jd now raw)
    ∧ ∀ t : Int,
      (normalize_messages pp jd now raw).filter (fun m => decide (m.ts_ms = t)) =
        (preNormalize pp jd now raw).filter (fun m => decide (m.ts_ms = t)) := by
  constructor
  · rw [normalize_messages]
    have h := List.sorted_mergeSort tsLe_trans tsLe_total (preNormalize pp jd now raw)
    exact h.imp (fun hab => by simpa [tsLe] using hab)
  · intro t
    have hself : ((preNormalize pp jd now raw).filter (fun m => decide (m.ts_ms = t))).filter
        (fun m => decide (m.ts_ms = t)) =
        (preNormalize pp jd now raw).filter (fun m => decide (m.ts_ms = t)) := by
      rw [List.filter_eq_self]
      intro a ha
      exact (List.mem_filter.mp ha).2
    have hpair : ((preNormalize pp jd now raw).filter (fun m => decide (m.ts_ms = t))).Pairwise
        (fun a b : NMsg => tsLe a b = true) := by
      apply List.pairwise_of_forall_mem_list
      intro a ha b hb
      have ha' := (List.mem_filter.mp ha).2
      have hb' := (List.mem_filter.mp hb).2
      simp only [decide_eq_true_eq] at ha' hb'
      simp only [tsLe, decide_eq_true_eq]
      omega
    have h1 : List.Sublist ((preNormalize pp jd now raw).filter (fun m => decide (m.ts_ms = t)))
        ((preNormalize pp jd now raw).mergeSort tsLe) :=
      List.sublist_mergeSort tsLe_trans tsLe_total hpair
        (List.filter_sublist (preNormalize pp jd now raw))
    have h2 : List.Sublist ((preNormalize pp jd now raw).filter (fun m => decide (m.ts_ms = t)))
        (((preNormalize pp jd now raw).mergeSort tsLe).filter (fun m => decide (m.ts_ms = t))) := by
      have h3 := h1.filter (fun m => decide (m.ts_ms = t))
      rwa [hself] at h3
    have hlen : (((preNormalize pp jd now raw).mergeSort tsLe).filter
        (fun m => decide (m.ts_ms = t))).length =
        ((preNormalize pp jd now raw).filter (fun m => decide (m.ts_ms = t))).length :=
      ((List.mergeSort_perm (preNormalize pp jd now raw) tsLe).filter _).length_eq
    rw [normalize_messages]
    exact (h2.eq_of_length hlen.symm).symm

/-! ## C7: timestamp resolution -/

/-- C7 (amended).  Timestamp resolution tries general calendar-string parsing
(pandas) first; on failure it tries the positional numeric tuple, which
requires all seven fields `year, month, day, hour, minute, second,
microsecond` (a tuple with missing trailing fields does not match and is not
defaulted — trailing-field defaulting happens only in the dump-format
decoder's `datetime.datetime(...)` extraction); on total failure
`normalize_messages` substitutes the current processing time, so a record
with valid content and a known actor is never dropped because its timestamp
is unparseable. -/
theorem parse_timestamp_order_spec (pp : String → Option Int) (now : Int) :
    (∀ s ms, pp s = some ms → parse_timestamp_to_ms pp (.pystr s) = some ms)
    ∧ (∀ s y mo d h mi sec mic, pp s = none →
        parseTuple7 s = some (y, mo, d, h, mi, sec, mic) →
        parse_timestamp_to_ms pp (.pystr s) =
          (if datetimeValid y mo d h mi sec mic then some (civilToMs y mo d h mi sec mic)
           else none))
    ∧ (∀ s, pp s = none → parseTuple7 s = none → parse_timestamp_to_ms pp (.pystr s) = none)
    ∧ (∀ r : RawMsg, ∀ c, r.mensaje = some c → pyStrip c ≠ "" →
        placeholders.contains (pyStrip c) = false →
        (resolve_actor r.us_origen r).1 ≠ .UNKNOWN →
        processItem pp now (.rdict r) =
          some (NMsg.mk ((parse_timestamp_to_ms pp r.message_time).getD now)
            (resolve_actor r.us_origen r).1 (resolve_actor r.us_origen r).2 (pyStrip c) r)) := by
  refine ⟨?_, ?_, ?_, ?_⟩
  · intro s ms h
    simp [parse_timestamp_to_ms, h]
  · intro s y mo d h mi sec mic hp ht
    simp [parse_timestamp_to_ms, hp, ht]
  · intro s hp ht
    simp [parse_timestamp_to_ms, hp, ht]
  · intro r c hm h1 h2 h3
    exact processItem_keeps pp now r c hm h1 h2 h3

/-- Counterexample for C7 as stated: the five-field tuple string
`"2025, 1, 2, 3, 4"` is not parsed with the missing trailing fields defaulted
to zero; when general parsing fails, `parse_timestamp_to_ms` returns `None`
(and the caller substitutes the current time) instead of the claimed
`datetime(2025, 1, 2, 3, 4, 0, 0)` value. -/
theorem parse_timestamp_no_default_counterexample :
    parse_timestamp_to_ms (fun _ => none) (.pystr "2025, 1, 2, 3, 4") = none
    ∧ parse_timestamp_to_ms (fun _ => none) (.pystr "2025, 1, 2, 3, 4")
        ≠ some (civilToMs 2025 1 2 3 4 0 0) := by
  refine ⟨by decide, ?_⟩
  rw [show parse_timestamp_to_ms (fun _ => none) (.pystr "2025, 1, 2, 3, 4") = none by decide]
  decide

/-- Witness for C7: a pandas success is returned as-is, and a record whose
timestamp is unparseable is still kept, with the current processing time. -/
theorem parse_timestamp_order_spec_witness :
    parse_timestamp_to_ms (fun s => if s = "x" then some 42 else none) (.pystr "x") = some 42
    ∧ processItem (fun _ => none) 99
        (.rdict (RawMsg.mk (some "hola") (.pystr "not a date") (some "user")
          none none none none none)) =
      some (NMsg.mk 99 .CUSTOMER none "hola"
        (RawMsg.mk (some "hola") (.pystr "not a date") (some "user") none none none none none)) := by
  constructor
  · exact (parse_timestamp_order_spec (fun s => if s = "x" then some 42 else none) 99).1 "x" 42 rfl
  · have h := (parse_timestamp_order_spec (fun _ => none) 99).2.2.2
      (RawMsg.mk (some "hola") (.pystr "not a date") (some "user") none none none none none)
      "hola" rfl (by decide) (by decide) (by decide)
    rw [h]
    rfl

/-! ## C10: the wrap-as-single-message fallback never contributes output -/

/-- C10.  For a non-empty string input that neither JSON-decodes to usable
records nor parses as the custom dump format, `load_raw_messages` wraps the
whole (stripped) string as a single record with origin `"unknown"`; that
origin classifies as UNKNOWN, so `normalize_messages` drops the record and
returns the empty list. -/
theorem fallback_never_contributes (pp : String → Option Int) (jd : String → Option JVal)
    (now : Int) (s : String) (hs : s ≠ "")
    (hjson : jd (pyStrip s) = none ∨ jd (pyStrip s) = some .jother ∨
      ∃ inner, jd (pyStrip s) = some (.jstr inner) ∧
        try_parse_python_dump_string (pyStrip inner) = none)
    (hdump : hasDumpTokens (pyStrip s) = false) :
    normalize_messages pp jd now (.rstr s) = []
    ∧ (pyStrip s ≠ "" →
        load_raw_messages jd (.rstr s) =
          [.rdict (RawMsg.mk (some (pyStrip s)) .pynone (some "unknown") none none none none none)])
    ∧ (resolve_actor (some "unknown")
        (RawMsg.mk (some (pyStrip s)) .pynone (some "unknown") none none none none none)).1
        = .UNKNOWN := by
  have hdtry : try_parse_python_dump_string (pyStrip s) = none := by
    rw [try_parse_python_dump_string, if_pos (by simp [hdump])]
  have hload : pyStrip s ≠ "" →
      load_raw_messages jd (.rstr s) =
        [.rdict (RawMsg.mk (some (pyStrip s)) .pynone (some "unknown")
          none none none none none)] := by
    intro hps
    simp only [load_raw_messages]
    rw [if_neg hps]
    rcases hjson with hj | hj | ⟨inner, hj, hdi⟩
    · simp only [hj]
      rw [hdtry]
    · simp only [hj]
      rw [hdtry]
    · simp only [hj, hdi]
      rw [hdtry]
      rfl
  refine ⟨?_, hload, rfl⟩
  rw [normalize_messages]
  suffices h : preNormalize pp jd now (.rstr s) = [] by
    rw [h, List.mergeSort_nil]
  rw [preNormalize]
  by_cases hps : pyStrip s = ""
  · simp [load_raw_messages, hps]
  · rw [hload hps]
    simp only [List.filterMap]
    suffices h : processItem pp now
        (.rdict (RawMsg.mk (some (pyStrip s)) .pynone (some "unknown")
          none none none none none)) = none by
      rw [h]
    simp only [processItem]
    rw [if_neg (by rw [pyStrip_idem]; exact hps)]
    by_cases hpl : placeholders.contains (pyStrip (pyStrip s)) = true
    · rw [if_pos hpl]
    · rw [if_neg hpl]
      rfl

/-- Witness for C10: the plain string `"hola"` with a failing JSON decoder
normalizes to the empty list. -/
theorem fallback_never_contributes_witness :
    normalize_messages (fun _ => none) (fun _ => none) 0 (.rstr "hola") = [] :=
  (fallback_never_contributes (fun _ => none) (fun _ => none) 0 "hola"
    (by decide) (Or.inl rfl) (by decide)).1

/-! ## Participant grouping: lemmas about `bump` and `countParticipants` -/

/-- Total message count booked under key `k` in a participant table. -/
def keyOccs (acc : List (String × PartInfo)) (k : String) : Nat :=
  ((acc.filter (fun p => decide (p.1 = k))).map (fun p => p.2.count)).sum

theorem bump_keys (acc : List (String × PartInfo)) (key : String) (act : ActorType)
    (em : Option String) :
    (bump acc key act em).map Prod.fst =
      if key ∈ acc.map Prod.fst then acc.map Prod.fst else acc.map Prod.fst ++ [key] := by
  induction acc with
  | nil => simp [bump]
  | cons p t ih =>
    rcases p with ⟨k, i⟩
    rw [bump]
    by_cases hk : k = key
    · rw [if_pos hk]
      simp [hk]
    · rw [if_neg hk]
      simp only [List.map_cons]
      rw [ih]
      by_cases hmem : key ∈ t.map Prod.fst
      · rw [if_pos hmem, if_pos (by simp [hmem])]
      · have hcond : key ∉ (k, i).1 :: t.map Prod.fst := by
          intro hc
          rcases List.mem_cons.mp hc with hc | hc
          · exact hk hc.symm
          · exact hmem hc
        rw [if_neg hmem, if_neg hcond]
        simp

theorem keyOccs_nil (k : String) : keyOccs [] k = 0 := rfl

theorem keyOccs_cons (p : String × PartInfo) (t : List (String × PartInfo)) (k : String) :
    keyOccs (p :: t) k = (if p.1 = k then p.2.count else 0) + keyOccs t k := by
  rw [keyOccs, List.filter_cons]
  by_cases hk : p.1 = k
  · rw [if_pos (by simp [hk]), if_pos hk]
    simp [keyOccs]
  · rw [if_neg (by simp [hk]), if_neg hk]
    simp [keyOccs]

theorem keyOccs_bump (acc : List (String × PartInfo)) (key : String) (act : ActorType)
    (em : Option String) (k : String) :
    keyOccs (bump acc key act em) k = keyOccs acc k + (if k = key then 1 else 0) := by
  induction acc with
  | nil =>
    rw [bump, keyOccs_cons, keyOccs_nil]
    dsimp only
    by_cases hk : key = k
    · rw [if_pos hk, if_pos hk.symm]
    · rw [if_neg hk, if_neg (fun h => hk h.symm)]
  | cons p t ih =>
    rcases p with ⟨k0, i⟩
    rw [bump]
    by_cases hk0 : k0 = key
    · rw [if_pos hk0, keyOccs_cons, keyOccs_cons]
      dsimp only
      by_cases hk : k0 = k
      · rw [if_pos hk, if_pos hk, if_pos (show k = key from hk0 ▸ hk.symm)]
        omega
      · rw [if_neg hk, if_neg hk, if_neg (show ¬ k = key from fun h => hk (hk0.trans h.symm))]
        omega
    · rw [if_neg hk0, keyOccs_cons, keyOccs_cons, ih]
      dsimp only
      by_cases hk : k0 = k
      · rw [if_pos hk]
        omega
      · rw [if_neg hk]
        omega

theorem keyOccs_zero_of_not_mem (acc : List (String × PartInfo)) (k : String)
    (h : k ∉ acc.map Prod.fst) : keyOccs acc k = 0 := by
  induction acc with
  | nil => rfl
  | cons p t ih =>
    simp only [List.map_cons, List.mem_cons] at h
    push_neg at h
    rw [keyOccs_cons, if_neg (fun hh => h.1 hh.symm), ih h.2]

theorem count_eq_keyOccs : ∀ (acc : List (String × PartInfo)) (k : String) (i : PartInfo),
    (acc.map Prod.fst).Nodup → ((k, i) ∈ acc) → i.count = keyOccs acc k := by
  intro acc
  induction acc with
  | nil =>
    intro k i _ h
    simp at h
  | cons p t ih =>
    intro k i hnd h
    rcases p with ⟨k0, i0⟩
    simp only [List.map_cons, List.nodup_cons] at hnd
    rcases List.mem_cons.mp h with heq | hmem
    · injection heq with h1 h2
      subst h1
      subst h2
      rw [keyOccs_cons]
      dsimp only
      rw [if_pos rfl, keyOccs_zero_of_not_mem t k hnd.1]
      omega
    · have hk : k0 ≠ k := by
        intro hkk
        subst hkk
        exact hnd.1 (List.mem_map.mpr ⟨(k0, i), hmem, rfl⟩)
      rw [keyOccs_cons]
      dsimp only
      rw [if_neg hk]
      have := ih k i hnd.2 hmem
      omega

/-- The step function of the `countParticipants` fold. -/
def countStep (acc : List (String × PartInfo)) (m : NMsg) : List (String × PartInfo) :=
  match msgKeyEmail m with
  | some ke => bump acc ke.1 m.actor_type ke.2
  | none => acc

theorem countParticipants_eq_foldl (msgs : List NMsg) :
    countParticipants msgs = msgs.foldl countStep [] := rfl

theorem foldl_keys_nodup (msgs : List NMsg) :
    ∀ acc, (acc.map Prod.fst).Nodup → ((msgs.foldl countStep acc).map Prod.fst).Nodup := by
  induction msgs with
  | nil => intro acc h; exact h
  | cons m ms ih =>
    intro acc h
    rw [List.foldl_cons]
    apply ih
    rcases hke : msgKeyEmail m with _ | ke
    · have hstep : countStep acc m = acc := by rw [countStep, hke]
      rw [hstep]
      exact h
    · have hstep : countStep acc m = bump acc ke.1 m.actor_type ke.2 := by rw [countStep, hke]
      rw [hstep, bump_keys]
      by_cases hmem : ke.1 ∈ acc.map Prod.fst
      · rw [if_pos hmem]
        exact h
      · rw [if_neg hmem, List.nodup_append]
        refine ⟨h, List.nodup_singleton _, ?_⟩
        intro a ha hb
        have hab : a = ke.1 := by simpa using hb
        subst hab
        exact hmem ha

theorem foldl_keyOccs (msgs : List NMsg) :
    ∀ acc k, keyOccs (msgs.foldl countStep acc) k =
      keyOccs acc k + msgs.countP (fun m => decide (msgKey m = some k)) := by
  induction msgs with
  | nil => intro acc k; simp [keyOccs_nil]
  | cons m ms ih =>
    intro acc k
    rw [List.foldl_cons, ih]
    rcases hke : msgKeyEmail m with _ | ke
    · have hmk : msgKey m = none := by rw [msgKey, hke]; rfl
      have hstep : countStep acc m = acc := by rw [countStep, hke]
      rw [hstep, List.countP_cons_of_neg (fun m => decide (msgKey m = some k)) ms (by simp [hmk])]
    · have hmk : msgKey m = some ke.1 := by rw [msgKey, hke]; rfl
      have hstep : countStep acc m = bump acc ke.1 m.actor_type ke.2 := by rw [countStep, hke]
      rw [hstep, keyOccs_bump]
      by_cases hk : k = ke.1
      · rw [if_pos hk, List.countP_cons_of_pos (fun m => decide (msgKey m = some k)) ms (by simp [hmk, hk])]
        omega
      · rw [if_neg hk, List.countP_cons_of_neg (fun m => decide (msgKey m = some k)) ms (by
          simp only [hmk, decide_eq_true_eq, Option.some.injEq]
          exact fun h => hk h.symm)]
        omega

theorem foldl_mem_keys (msgs : List NMsg) :
    ∀ acc k, k ∈ (msgs.foldl countStep acc).map Prod.fst ↔
      k ∈ acc.map Prod.fst ∨ ∃ m ∈ msgs, msgKey m = some k := by
  induction msgs with
  | nil => intro acc k; simp
  | cons m ms ih =>
    intro acc k
    rw [List.foldl_cons, ih]
    rcases hke : msgKeyEmail m with _ | ke
    · have hmk : msgKey m = none := by rw [msgKey, hke]; rfl
      have hstep : countStep acc m = acc := by rw [countStep, hke]
      rw [hstep]
      constructor
      · rintro (h | ⟨m1, hm1, hk1⟩)
        · exact Or.inl h
        · exact Or.inr ⟨m1, List.mem_cons_of_mem m hm1, hk1⟩
      · rintro (h | ⟨m1, hm1, hk1⟩)
        · exact Or.inl h
        · rcases List.mem_cons.mp hm1 with heq | hm1b
          · subst heq
            rw [hmk] at hk1
            simp at hk1
          · exact Or.inr ⟨m1, hm1b, hk1⟩
    · have hmk : msgKey m = some ke.1 := by rw [msgKey, hke]; rfl
      have hstep : countStep acc m = bump acc ke.1 m.actor_type ke.2 := by rw [countStep, hke]
      rw [hstep]
      constructor
      · rintro (h | ⟨m1, hm1, hk1⟩)
        · rw [bump_keys] at h
          by_cases hmem : ke.1 ∈ acc.map Prod.fst
          · rw [if_pos hmem] at h
            exact Or.inl h
          · rw [if_neg hmem] at h
            rcases List.mem_append.mp h with h | h
            · exact Or.inl h
            · have hkk : k = ke.1 := by simpa using h
              exact Or.inr ⟨m, List.mem_cons_self m ms, by rw [hmk, hkk]⟩
        · exact Or.inr ⟨m1, List.mem_cons_of_mem m hm1, hk1⟩
      · rintro (h | ⟨m1, hm1, hk1⟩)
        · left
          rw [bump_keys]
          by_cases hmem : ke.1 ∈ acc.map Prod.fst
          · rw [if_pos hmem]
            exact h
          · rw [if_neg hmem]
            exact List.mem_append.mpr (Or.inl h)
        · rcases List.mem_cons.mp hm1 with heq | hm1b
          · subst heq
            have hkk : ke.1 = k := by
              rw [hmk] at hk1
              injection hk1
            left
            rw [bump_keys]
            by_cases hmem : ke.1 ∈ acc.map Prod.fst
            · rw [if_pos hmem, ← hkk]
              exact hmem
            · rw [if_neg hmem]
              refine List.mem_append.mpr (Or.inr ?_)
              simp [hkk]
          · right
            exact ⟨m1, hm1b, hk1⟩

/-! ## Lemmas at the `_build_participants_from_messages` level -/

theorem build_participants_keys (cfg : DConfig) (agentDir : String → Option String)
    (job : Job) (msgs : List NMsg) :
    (_build_participants_from_messages cfg agentDir job msgs).map Prod.fst =
      (countParticipants msgs).map Prod.fst := by
  rw [_build_participants_from_messages, List.map_map]
  apply List.map_congr_left
  intro p _
  rfl

theorem countParticipants_nodup (msgs : List NMsg) :
    ((countParticipants msgs).map Prod.fst).Nodup := by
  rw [countParticipants_eq_foldl]
  exact foldl_keys_nodup msgs [] (by simp)

theorem build_counts (cfg : DConfig) (agentDir : String → Option String)
    (job : Job) (msgs : List NMsg) :
    ∀ p ∈ _build_participants_from_messages cfg agentDir job msgs,
      p.2.count = msgs.countP (fun m => decide (msgKey m = some p.1)) ∧ 1 ≤ p.2.count := by
  intro p hp
  rw [_build_participants_from_messages, List.mem_map] at hp
  rcases hp with ⟨q, hq, hfq⟩
  have hk : p.1 = q.1 := by rw [← hfq]
  have hc : p.2.count = q.2.count := by rw [← hfq]
  have h1 : q.2.count = keyOccs (countParticipants msgs) q.1 := by
    apply count_eq_keyOccs _ _ _ (countParticipants_nodup msgs)
    simpa using hq
  have h2 : keyOccs (countParticipants msgs) q.1 =
      msgs.countP (fun m => decide (msgKey m = some q.1)) := by
    rw [countParticipants_eq_foldl, foldl_keyOccs]
    simp [keyOccs_nil]
  have hkey : q.1 ∈ (countParticipants msgs).map Prod.fst := List.mem_map.mpr ⟨q, hq, rfl⟩
  have hex : ∃ m ∈ msgs, msgKey m = some q.1 := by
    have hm := (foldl_mem_keys msgs [] q.1).mp (by rw [← countParticipants_eq_foldl]; exact hkey)
    rcases hm with h | h
    · simp at h
    · exact h
  have hpos : 0 < msgs.countP (fun m => decide (msgKey m = some q.1)) := by
    rw [List.countP_pos_iff]
    rcases hex with ⟨m, hm, hmk⟩
    exact ⟨m, hm, by simp [hmk]⟩
  constructor
  · rw [hc, hk, h1, h2]
  · omega

theorem build_mem_keys (cfg : DConfig) (agentDir : String → Option String)
    (job : Job) (msgs : List NMsg) (k : String) :
    k ∈ (_build_participants_from_messages cfg agentDir job msgs).map Prod.fst ↔
      ∃ m ∈ msgs, msgKey m = some k := by
  rw [build_participants_keys, countParticipants_eq_foldl, foldl_mem_keys]
  simp

theorem foldl_countStep_no_key (msgs : List NMsg) (h : ∀ m ∈ msgs, msgKeyEmail m = none) :
    ∀ acc, msgs.foldl countStep acc = acc := by
  induction msgs with
  | nil => intro acc; rfl
  | cons m ms ih =>
    intro acc
    rw [List.foldl_cons]
    have hstep : countStep acc m = acc := by
      rw [countStep, h m (List.mem_cons_self m ms)]
    rw [hstep]
    exact ih (fun m1 hm1 => h m1 (List.mem_cons_of_mem m hm1)) acc

theorem msgKeyEmail_none_of_not_employee (m : NMsg)
    (h : m.actor_type ≠ .BOT ∧ m.actor_type ≠ .AGENT) : msgKeyEmail m = none := by
  rw [msgKeyEmail]
  rcases ha : m.actor_type
  · rfl
  · exact absurd ha h.1
  · exact absurd ha h.2
  · rfl

theorem build_eq_nil_of_no_employees (cfg : DConfig) (agentDir : String → Option String)
    (job : Job) (msgs : List NMsg) (h : ∀ m ∈ msgs, m.actor_type ≠ .BOT ∧ m.actor_type ≠ .AGENT) :
    _build_participants_from_messages cfg agentDir job msgs = [] := by
  have hc : countParticipants msgs = [] := by
    rw [countParticipants_eq_foldl]
    exact foldl_countStep_no_key msgs
      (fun m hm => msgKeyEmail_none_of_not_employee m (h m hm)) []
  rw [_build_participants_from_messages, hc]
  rfl

theorem build_ne_nil_of_employee (cfg : DConfig) (agentDir : String → Option String)
    (job : Job) (msgs : List NMsg)
    (h : ∃ m ∈ msgs, m.actor_type = .BOT ∨ m.actor_type = .AGENT) :
    _build_participants_from_messages cfg agentDir job msgs ≠ [] := by
  rcases h with ⟨m, hm, hba⟩
  have hke : ∃ ke, msgKeyEmail m = some ke := by
    rw [msgKeyEmail]
    rcases hba with h | h <;> rw [h]
    · exact ⟨_, rfl⟩
    · rcases hne : normEmail m.actor_email with _ | e
      · exact ⟨_, rfl⟩
      · exact ⟨_, rfl⟩
  rcases hke with ⟨ke, hke⟩
  intro hnil
  have hmem : ke.1 ∈ (_build_participants_from_messages cfg agentDir job msgs).map Prod.fst :=
    (build_mem_keys cfg agentDir job msgs ke.1).mpr ⟨m, hm, by rw [msgKey, hke]; rfl⟩
  rw [hnil] at hmem
  simp at hmem

/-! ## `pickMax` -/

theorem pickMax_mem : ∀ (xs : List (String × PartInfo)) (best : String × PartInfo),
    pickMax best xs = best ∨ pickMax best xs ∈ xs := by
  intro xs
  induction xs with
  | nil =>
    intro best
    left
    rfl
  | cons x t ih =>
    intro best
    rw [pickMax]
    rcases ih (if best.2.count < x.2.count then x else best) with h | h
    · rw [h]
      by_cases hc : best.2.count < x.2.count
      · rw [if_pos hc]
        exact Or.inr (List.mem_cons_self _ _)
      · rw [if_neg hc]
        exact Or.inl rfl
    · exact Or.inr (List.mem_cons_of_mem _ h)

theorem pickMax_ge : ∀ (xs : List (String × PartInfo)) (best q : String × PartInfo),
    (q = best ∨ q ∈ xs) → q.2.count ≤ (pickMax best xs).2.count := by
  intro xs
  induction xs with
  | nil =>
    intro best q h
    rcases h with rfl | h
    · exact Nat.le_refl _
    · simp at h
  | cons x t ih =>
    intro best q h
    rw [pickMax]
    rcases h with rfl | h
    · by_cases hc : q.2.count < x.2.count
      · rw [if_pos hc]
        exact le_trans (Nat.le_of_lt hc) (ih x x (Or.inl rfl))
      · rw [if_neg hc]
        exact ih q q (Or.inl rfl)
    · rcases List.mem_cons.mp h with heq | hmem
      · subst heq
        by_cases hc : best.2.count < q.2.count
        · rw [if_pos hc]
          exact ih q q (Or.inl rfl)
        · rw [if_neg hc]
          exact le_trans (Nat.le_of_not_lt hc) (ih best best (Or.inl rfl))
      · exact ih _ q (Or.inr hmem)

/-! ## C8: grouping and main-participant selection -/

/-- C8.  `_build_participants_from_messages` groups BOT and AGENT messages
into participants: every BOT message lands under the single key `"BOT"`,
every AGENT message under the key derived from its trimmed, lower-cased
email (`"AGENT|"` when the email is empty), CUSTOMER messages contribute no
participant; each participant's message count equals the number of its
messages and is at least 1, and a key is present exactly when some message
maps to it.  Among the participants with a resolved employee id, the main
participant chosen by `send_session_to_drellia` (`pickMax` over the filtered
list) is itself resolved and has a maximal message count. -/
theorem build_participants_spec (cfg : DConfig) (agentDir : String → Option String)
    (job : Job) (msgs : List NMsg) :
    (∀ m ∈ msgs, m.actor_type = .BOT → msgKey m = some "BOT")
    ∧ (∀ m ∈ msgs, m.actor_type = .AGENT → msgKey m =
        some (match normEmail m.actor_email with
              | some e => "AGENT|" ++ e
              | none => "AGENT|"))
    ∧ (∀ m ∈ msgs, m.actor_type = .CUSTOMER → msgKey m = none)
    ∧ (∀ p ∈ _build_participants_from_messages cfg agentDir job msgs,
        p.2.count = msgs.countP (fun m => decide (msgKey m = some p.1)) ∧ 1 ≤ p.2.count)
    ∧ (∀ k, (∃ i, (k, i) ∈ _build_participants_from_messages cfg agentDir job msgs) ↔
        ∃ m ∈ msgs, msgKey m = some k)
    ∧ (∀ v vs, (_build_participants_from_messages cfg agentDir job msgs).filter
          (fun p => otruthy p.2.employee_id) = v :: vs →
        pickMax v vs ∈ (_build_participants_from_messages cfg agentDir job msgs).filter
          (fun p => otruthy p.2.employee_id)
        ∧ otruthy (pickMax v vs).2.employee_id = true
        ∧ ∀ q ∈ (_build_participants_from_messages cfg agentDir job msgs).filter
            (fun p => otruthy p.2.employee_id), q.2.count ≤ (pickMax v vs).2.count) := by
  refine ⟨?_, ?_, ?_, build_counts cfg agentDir job msgs, ?_, ?_⟩
  · intro m _ ha
    rw [msgKey, msgKeyEmail, ha]
    rfl
  · intro m _ ha
    rw [msgKey, msgKeyEmail, ha]
    rcases hne : normEmail m.actor_email with _ | e <;> rfl
  · intro m _ ha
    rw [msgKey, msgKeyEmail, ha]
    rfl
  · intro k
    constructor
    · rintro ⟨i, hi⟩
      exact (build_mem_keys cfg agentDir job msgs k).mp (List.mem_map.mpr ⟨(k, i), hi, rfl⟩)
    · intro h
      rcases List.mem_map.mp ((build_mem_keys cfg agentDir job msgs k).mpr h) with ⟨p, hp, hpk⟩
      exact ⟨p.2, by rw [← hpk]; simpa using hp⟩
  · intro v vs hfl
    have hmem : pickMax v vs ∈ v :: vs := by
      rcases pickMax_mem vs v with h | h
      · rw [h]
        exact List.mem_cons_self _ _
      · exact List.mem_cons_of_mem _ h
    refine ⟨by rw [hfl]; exact hmem, ?_, ?_⟩
    · have := List.mem_filter.mp (by rw [hfl]; exact hmem)
      exact this.2
    · intro q hq
      rw [hfl] at hq
      rcases List.mem_cons.mp hq with heq | hmem2
      · exact pickMax_ge vs v q (Or.inl heq)
      · exact pickMax_ge vs v q (Or.inr hmem2)

/-- Witness for C8: two BOT messages and one CUSTOMER message yield the
single participant `"BOT"` with count 2, which is selected as main. -/
theorem build_participants_spec_witness :
    pickMax ("BOT", PartInfo.mk .BOT none 2 (some "bot-1")) [] ∈
      (_build_participants_from_messages (DConfig.mk (some "prov") (some "bot-1"))
        (fun _ => none) (Job.mk "s" none none)
        [NMsg.mk 1 .BOT none "a" (RawMsg.mk none .pynone none none none none none none),
         NMsg.mk 2 .BOT none "b" (RawMsg.mk none .pynone none none none none none none),
         NMsg.mk 3 .CUSTOMER none "c" (RawMsg.mk none .pynone none none none none none none)]).filter
        (fun p => otruthy p.2.employee_id)
    ∧ otruthy (pickMax ("BOT", PartInfo.mk .BOT none 2 (some "bot-1")) []).2.employee_id = true
    ∧ ∀ q ∈ (_build_participants_from_messages (DConfig.mk (some "prov") (some "bot-1"))
        (fun _ => none) (Job.mk "s" none none)
        [NMsg.mk 1 .BOT none "a" (RawMsg.mk none .pynone none none none none none none),
         NMsg.mk 2 .BOT none "b" (RawMsg.mk none .pynone none none none none none none),
         NMsg.mk 3 .CUSTOMER none "c" (RawMsg.mk none .pynone none none none none none none)]).filter
        (fun p => otruthy p.2.employee_id),
      q.2.count ≤ (pickMax ("BOT", PartInfo.mk .BOT none 2 (some "bot-1")) []).2.count :=
  (build_participants_spec (DConfig.mk (some "prov") (some "bot-1")) (fun _ => none)
      (Job.mk "s" none none)
      [NMsg.mk 1 .BOT none "a" (RawMsg.mk none .pynone none none none none none none),
       NMsg.mk 2 .BOT none "b" (RawMsg.mk none .pynone none none none none none none),
       NMsg.mk 3 .CUSTOMER none "c" (RawMsg.mk none .pynone none none none none none none)]
    ).2.2.2.2.2 ("BOT", PartInfo.mk .BOT none 2 (some "bot-1")) [] (by decide)

/-! ## Branch equations for `send_session_to_drellia` -/

theorem send_session_no_provider (d : SendDeps) (msgs : List NMsg) (cid : String)
    (hp : ¬ otruthy d.cfg.provider_id = true) :
    send_session_to_drellia d msgs cid =
      SendOut.mk (.ok (SessRes.mk d.job.session_id d.job.lote_id .FAILED
        (some "Falta DRELLIA_PROVIDER_ID en config") 0 0 [])) false false := by
  rw [send_session_to_drellia, if_pos hp]

theorem send_session_no_participants (d : SendDeps) (msgs : List NMsg) (cid : String)
    (hp : otruthy d.cfg.provider_id = true)
    (hpart : _build_participants_from_messages d.cfg d.agentDir d.job msgs = []) :
    send_session_to_drellia d msgs cid =
      SendOut.mk (.ok (SessRes.mk d.job.session_id d.job.lote_id .SKIPPED
        (some "NO_EMPLOYEES_IN_SESSION") 0 0 [])) false false := by
  rw [send_session_to_drellia, if_neg (fun hc => hc hp), hpart]
  rfl

theorem send_session_no_resolved (d : SendDeps) (msgs : List NMsg) (cid : String)
    (hp : otruthy d.cfg.provider_id = true)
    (hne : _build_participants_from_messages d.cfg d.agentDir d.job msgs ≠ [])
    (hfl : (_build_participants_from_messages d.cfg d.agentDir d.job msgs).filter
      (fun p => otruthy p.2.employee_id) = []) :
    send_session_to_drellia d msgs cid =
      SendOut.mk (.ok (SessRes.mk d.job.session_id d.job.lote_id .SKIPPED
        (some "NO_RESOLVED_EMPLOYEE_IDS") 0 0 [])) false false := by
  rw [send_session_to_drellia, if_neg (fun hc => hc hp),
    if_neg (fun hc => hne (List.isEmpty_iff.mp hc)), hfl]

theorem send_session_conv_create_failed (d : SendDeps) (msgs : List NMsg) (cid : String)
    (hp : otruthy d.cfg.provider_id = true) (v : String × PartInfo) (vs : List (String × PartInfo))
    (hfl : (_build_participants_from_messages d.cfg d.agentDir d.job msgs).filter
      (fun p => otruthy p.2.employee_id) = v :: vs)
    (s : Nat) (b : ConvBody) (hrun : (_post_with_retry d.convNet 2 true).result = .ok s b)
    (hs : ¬ (s = 200 ∨ s = 201)) :
    send_session_to_drellia d msgs cid =
      SendOut.mk (.ok (SessRes.mk d.job.session_id d.job.lote_id .FAILED
        (some "CONV_CREATE_FAILED") s 0 [])) true false := by
  have hne : _build_participants_from_messages d.cfg d.agentDir d.job msgs ≠ [] := by
    intro h
    rw [h] at hfl
    simp at hfl
  rw [send_session_to_drellia, if_neg (fun hc => hc hp),
    if_neg (fun hc => hne (List.isEmpty_iff.mp hc)), hfl]
  simp only [hrun]
  rw [if_pos hs]

theorem send_session_conv_create_no_id (d : SendDeps) (msgs : List NMsg) (cid : String)
    (hp : otruthy d.cfg.provider_id = true) (v : String × PartInfo) (vs : List (String × PartInfo))
    (hfl : (_build_participants_from_messages d.cfg d.agentDir d.job msgs).filter
      (fun p => otruthy p.2.employee_id) = v :: vs)
    (s : Nat) (b : ConvBody) (hrun : (_post_with_retry d.convNet 2 true).result = .ok s b)
    (hs : s = 200 ∨ s = 201) (hid : ¬ otruthy b.id = true)
    (hdid : ∀ dta, b.dataField = some dta → ¬ otruthy dta.id = true) :
    send_session_to_drellia d msgs cid =
      SendOut.mk (.ok (SessRes.mk d.job.session_id d.job.lote_id .FAILED
        (some "CONV_CREATE_NO_ID") s 0 [])) true false := by
  have hne : _build_participants_from_messages d.cfg d.agentDir d.job msgs ≠ [] := by
    intro h
    rw [h] at hfl
    simp at hfl
  have hcid : ¬ otruthy (match b.dataField with
      | some dta => dta.id
      | none => b.id) = true := by
    rcases hb : b.dataField with _ | dta
    · exact hid
    · exact hdid dta hb
  rw [send_session_to_drellia, if_neg (fun hc => hc hp),
    if_neg (fun hc => hne (List.isEmpty_iff.mp hc)), hfl]
  simp only [hrun]
  rw [if_neg (fun hc => hc hs), if_pos hcid]

/-! ## C3: preconditions checked in order, before any remote call -/

/-- C3.  `send_session_to_drellia` checks its preconditions in order, each
yielding a distinct typed outcome with both HTTP codes 0 and neither remote
endpoint called: missing provider id gives FAILED; a session without BOT or
AGENT messages gives SKIPPED/NO_EMPLOYEES_IN_SESSION; participants none of
which resolved to an employee id give SKIPPED/NO_RESOLVED_EMPLOYEE_IDS. -/
theorem send_session_preconditions (d : SendDeps) (msgs : List NMsg) (cid : String) :
    (¬ otruthy d.cfg.provider_id = true →
      send_session_to_drellia d msgs cid =
        SendOut.mk (.ok (SessRes.mk d.job.session_id d.job.lote_id .FAILED
          (some "Falta DRELLIA_PROVIDER_ID en config") 0 0 [])) false false)
    ∧ (otruthy d.cfg.provider_id = true →
       (∀ m ∈ msgs, m.actor_type ≠ .BOT ∧ m.actor_type ≠ .AGENT) →
      send_session_to_drellia d msgs cid =
        SendOut.mk (.ok (SessRes.mk d.job.session_id d.job.lote_id .SKIPPED
          (some "NO_EMPLOYEES_IN_SESSION") 0 0 [])) false false)
    ∧ (otruthy d.cfg.provider_id = true →
       (∃ m ∈ msgs, m.actor_type = .BOT ∨ m.actor_type = .AGENT) →
       (∀ p ∈ _build_participants_from_messages d.cfg d.agentDir d.job msgs,
          p.2.employee_id = none) →
      send_session_to_drellia d msgs cid =
        SendOut.mk (.ok (SessRes.mk d.job.session_id d.job.lote_id .SKIPPED
          (some "NO_RESOLVED_EMPLOYEE_IDS") 0 0 [])) false false) := by
  refine ⟨send_session_no_provider d msgs cid, ?_, ?_⟩
  · intro hp hno
    exact send_session_no_participants d msgs cid hp
      (build_eq_nil_of_no_employees d.cfg d.agentDir d.job msgs hno)
  · intro hp hex hall
    refine send_session_no_resolved d msgs cid hp
      (build_ne_nil_of_employee d.cfg d.agentDir d.job msgs hex) ?_
    rw [List.filter_eq_nil_iff]
    intro p hpmem
    rw [hall p hpmem]
    simp [otruthy]

/-- Witness for C3: a session with only CUSTOMER messages is skipped with
NO_EMPLOYEES_IN_SESSION before any remote call. -/
theorem send_session_preconditions_witness :
    send_session_to_drellia
        (SendDeps.mk (DConfig.mk (some "prov") none) (fun _ => none) (Job.mk "s7" none none)
          (fun _ => .resp 200 (ConvBody.mk none (some "c1")))
          (fun _ => .resp 200 (ConvBody.mk none (some "c1"))))
        [NMsg.mk 1 .CUSTOMER none "hola"
          (RawMsg.mk none .pynone none none none none none none)] "cust-1" =
      SendOut.mk (.ok (SessRes.mk "s7" none .SKIPPED
        (some "NO_EMPLOYEES_IN_SESSION") 0 0 [])) false false :=
  (send_session_preconditions
      (SendDeps.mk (DConfig.mk (some "prov") none) (fun _ => none) (Job.mk "s7" none none)
        (fun _ => .resp 200 (ConvBody.mk none (some "c1")))
        (fun _ => .resp 200 (ConvBody.mk none (some "c1"))))
      [NMsg.mk 1 .CUSTOMER none "hola"
        (RawMsg.mk none .pynone none none none none none none)] "cust-1").2.1
    (by decide) (by decide)

/-! ## C4: conversation-creation failures -/

/-- C4.  When the conversation-creation call ends with a status other than
200/201 after the retry budget, `send_session_to_drellia` returns
FAILED/CONV_CREATE_FAILED with `http_code_conv` equal to that status and
`http_code_msgs` 0, and the message-send endpoint is never called; when the
status is 200/201 but the body carries no truthy conversation id (neither
top-level nor under a truthy `data` field), it returns the distinct
FAILED/CONV_CREATE_NO_ID, again without calling message-send. -/
theorem send_session_conv_failures (d : SendDeps) (msgs : List NMsg) (cid : String)
    (hp : otruthy d.cfg.provider_id = true)
    (hv : (_build_participants_from_messages d.cfg d.agentDir d.job msgs).filter
      (fun p => otruthy p.2.employee_id) ≠ []) :
    (∀ s b, (_post_with_retry d.convNet 2 true).result = .ok s b → s ≠ 200 → s ≠ 201 →
      send_session_to_drellia d msgs cid =
        SendOut.mk (.ok (SessRes.mk d.job.session_id d.job.lote_id .FAILED
          (some "CONV_CREATE_FAILED") s 0 [])) true false)
    ∧ (∀ s b, (_post_with_retry d.convNet 2 true).result = .ok s b → (s = 200 ∨ s = 201) →
        ¬ otruthy b.id = true → (∀ dta, b.dataField = some dta → ¬ otruthy dta.id = true) →
      send_session_to_drellia d msgs cid =
        SendOut.mk (.ok (SessRes.mk d.job.session_id d.job.lote_id .FAILED
          (some "CONV_CREATE_NO_ID") s 0 [])) true false) := by
  rcases hfl : (_build_participants_from_messages d.cfg d.agentDir d.job msgs).filter
      (fun p => otruthy p.2.employee_id) with _ | ⟨v, vs⟩
  · exact absurd hfl hv
  constructor
  · intro s b hrun h200 h201
    exact send_session_conv_create_failed d msgs cid hp v vs hfl s b hrun
      (by rintro (h | h) <;> [exact h200 h; exact h201 h])
  · intro s b hrun hs hid hdid
    exact send_session_conv_create_no_id d msgs cid hp v vs hfl s b hrun hs hid hdid

/-- Witness for C4: a 500 on every conversation-creation attempt yields
FAILED/CONV_CREATE_FAILED with code 500 and message-send never invoked. -/
theorem send_session_conv_failures_witness :
    send_session_to_drellia
        (SendDeps.mk (DConfig.mk (some "prov") (some "bot-1")) (fun _ => none)
          (Job.mk "s8" none none)
          (fun _ => .resp 500 (ConvBody.mk none none))
          (fun _ => .resp 200 (ConvBody.mk none (some "c1"))))
        [NMsg.mk 1 .BOT none "hola"
          (RawMsg.mk none .pynone none none none none none none)] "cust-1" =
      SendOut.mk (.ok (SessRes.mk "s8" none .FAILED
        (some "CONV_CREATE_FAILED") 500 0 [])) true false :=
  (send_session_conv_failures
      (SendDeps.mk (DConfig.mk (some "prov") (some "bot-1")) (fun _ => none)
        (Job.mk "s8" none none)
        (fun _ => .resp 500 (ConvBody.mk none none))
        (fun _ => .resp 200 (ConvBody.mk none (some "c1"))))
      [NMsg.mk 1 .BOT none "hola"
        (RawMsg.mk none .pynone none none none none none none)] "cust-1"
      (by decide) (by decide)).1
    500 (ConvBody.mk none none) (by decide) (by decide) (by decide)

/-! ## C9: the session boundary of `process_job` -/

/-- C9 (amended).  Once the per-session DB connection has been acquired,
`process_job` always returns an in-memory session result and never
propagates an exception: an exception raised anywhere in the body yields a
FAILED result whose reason carries the error text, written via the status
collaborator when that write succeeds, and returned (with the
EXCEPTION_NO_UPDATE reason) even when the write itself fails.  An exception
raised while acquiring the connection itself — the one step outside the
`try` block — propagates to the caller. -/
theorem process_job_boundary (d : ProcDeps) :
    (d.get_pg_conn = .ok () → ∃ r, process_job d = .ok r)
    ∧ (∀ e, d.get_pg_conn = .error e → process_job d = .error e)
    ∧ (∀ e, d.get_pg_conn = .ok () → process_job_body d = .error e →
        (d.update_envio_status (SessRes.mk d.job.session_id d.job.lote_id .FAILED
            (some ("EXCEPTION: " ++ e)) 0 0 []) = .ok () →
          process_job d = .ok (SessRes.mk d.job.session_id d.job.lote_id .FAILED
            (some ("EXCEPTION: " ++ e)) 0 0 []))
        ∧ (∀ e2, d.update_envio_status (SessRes.mk d.job.session_id d.job.lote_id .FAILED
            (some ("EXCEPTION: " ++ e)) 0 0 []) = .error e2 →
          process_job d = .ok (SessRes.mk d.job.session_id d.job.lote_id .FAILED
            (some ("EXCEPTION_NO_UPDATE: " ++ e)) 0 0 []))) := by
  refine ⟨?_, ?_, ?_⟩
  · intro hconn
    rw [process_job, hconn]
    rcases hb : process_job_body d with e | r
    · simp only
      rcases hu : d.update_envio_status (SessRes.mk d.job.session_id d.job.lote_id .FAILED
          (some ("EXCEPTION: " ++ e)) 0 0 []) with e2 | u
      · exact ⟨_, rfl⟩
      · exact ⟨_, rfl⟩
    · exact ⟨r, rfl⟩
  · intro e he
    rw [process_job, he]
  · intro e hconn hb
    constructor
    · intro hu
      rw [process_job, hconn, hb]
      simp only [hu]
    · intro e2 hu
      rw [process_job, hconn, hb]
      simp only [hu]

/-- Counterexample for C9 as stated: when acquiring the DB connection — the
step before the `try` block — raises, `process_job` propagates the exception
instead of returning a session-result dict. -/
theorem process_job_propagates_counterexample :
    process_job (ProcDeps.mk (Job.mk "s0" none none) .rnone
        (DConfig.mk (some "prov") none) (fun _ => none)
        (fun _ => .resp 200 (ConvBody.mk none (some "c1")))
        (fun _ => .resp 200 (ConvBody.mk none (some "c1")))
        (.error "PG_CONN_DOWN") (.ok (some "cust")) (fun _ => .ok ())
        (fun _ => none) (fun _ => none) 0)
      = Except.error "PG_CONN_DOWN"
    ∧ (process_job (ProcDeps.mk (Job.mk "s0" none none) .rnone
        (DConfig.mk (some "prov") none) (fun _ => none)
        (fun _ => .resp 200 (ConvBody.mk none (some "c1")))
        (fun _ => .resp 200 (ConvBody.mk none (some "c1")))
        (.error "PG_CONN_DOWN") (.ok (some "cust")) (fun _ => .ok ())
        (fun _ => none) (fun _ => none) 0)).isOk = false := by
  constructor <;> rfl

/-- Witness for C9: a body exception with a succeeding status write yields
the FAILED result carrying the error text. -/
theorem process_job_boundary_witness :
    process_job (ProcDeps.mk (Job.mk "s9" none none) .rnone
        (DConfig.mk (some "prov") none) (fun _ => none)
        (fun _ => .resp 200 (ConvBody.mk none (some "c1")))
        (fun _ => .resp 200 (ConvBody.mk none (some "c1")))
        (.ok ()) (.error "BOOM") (fun _ => .ok ())
        (fun _ => none) (fun _ => none) 0)
      = .ok (SessRes.mk "s9" none .FAILED (some "EXCEPTION: BOOM") 0 0 []) :=
  ((process_job_boundary (ProcDeps.mk (Job.mk "s9" none none) .rnone
        (DConfig.mk (some "prov") none) (fun _ => none)
        (fun _ => .resp 200 (ConvBody.mk none (some "c1")))
        (fun _ => .resp 200 (ConvBody.mk none (some "c1")))
        (.ok ()) (.error "BOOM") (fun _ => .ok ())
        (fun _ => none) (fun _ => none) 0)).2.2 "BOOM" rfl rfl).1 rfl

end Drellia
